import Mathlib

/-!
# lv_lib_bmp: the BMP decoder callbacks of `lv_bmp.c`

A shallow embedding of the four decoder callbacks (`decoder_info`, `decoder_open`,
`decoder_read_line`, `decoder_close`) together with the collaborators they call.

Conventions of the embedding
* a byte is a `Nat` (read modulo 256 where it is decoded), a buffer is a `List Nat`;
* `unsigned int` / `uint32_t` values are `Nat` reduced with `% 2 ^ 32`, `int` values are `Int`;
* the file system (`lv_fs_*`) is explicit state: a table of files, the list of open streams
  and a log of the calls made so far;
* storage the C code leaves uninitialised (`uint8_t headers[54]`) is a parameter holding the
  previous contents of that storage.
-/

namespace LvBmp

/-! ## Scalars -/

/-- Value of an `int` expression converted to `unsigned int` / `uint32_t`. -/
def as_uint (i : Int) : Nat := (i % 4294967296).toNat

/-- A 32-bit pattern reinterpreted as a two's complement `int`. -/
def as_int (n : Nat) : Int :=
  if n % 4294967296 < 2147483648 then ((n % 4294967296 : Nat) : Int)
  else ((n % 4294967296 : Nat) : Int) - 4294967296

/-- The byte stored at index `i` of a buffer (`uint8_t`). -/
def byte_at (l : List Nat) (i : Nat) : Nat := l.getD i 0 % 256

/-- Little-endian 16-bit load, as `memcpy(&v, p + off, 2)` does on the little-endian target. -/
def le_u16 (l : List Nat) (off : Nat) : Nat :=
  byte_at l off + 256 * byte_at l (off + 1)

/-- Little-endian 32-bit load, as `memcpy(&v, p + off, 4)` does on the little-endian target. -/
def le_u32 (l : List Nat) (off : Nat) : Nat :=
  byte_at l off + 256 * byte_at l (off + 1) + 65536 * byte_at l (off + 2)
    + 16777216 * byte_at l (off + 3)

/-- Little-endian signed 32-bit load: `*(int *)(p + off)`, or `memcpy` into an `int`. -/
def le_i32 (l : List Nat) (off : Nat) : Int := as_int (le_u32 l off)

/-! ## Result codes and enumerations of the host library -/

inductive lv_res_t where
  | LV_RES_INV
  | LV_RES_OK
  deriving DecidableEq, Repr

inductive lv_img_src_t where
  | LV_IMG_SRC_VARIABLE
  | LV_IMG_SRC_FILE
  | LV_IMG_SRC_SYMBOL
  | LV_IMG_SRC_UNKNOWN
  deriving DecidableEq, Repr

inductive lv_img_cf_t where
  | LV_IMG_CF_UNKNOWN
  | LV_IMG_CF_TRUE_COLOR
  | LV_IMG_CF_TRUE_COLOR_ALPHA
  deriving DecidableEq, Repr

open lv_res_t lv_img_src_t lv_img_cf_t

/-! ## C strings and the extension test -/

/-- The characters of the NUL-terminated string that starts a byte sequence. -/
def c_str (l : List Nat) : List Nat := l.takeWhile (fun c => c != 0)

/-- Length of a C string: `strlen`. -/
def strlen (l : List Nat) : Nat := (c_str l).length

/-- Comparison of two NUL-free character sequences, first difference decides. -/
def strcmp_chars : List Nat → List Nat → Int
  | [], [] => 0
  | [], b :: _ => - (b : Int)
  | a :: _, [] => (a : Int)
  | a :: as, b :: bs => if a = b then strcmp_chars as bs else (a : Int) - (b : Int)

/-- Model of `strcmp`: zero exactly when the two C strings are equal. -/
def strcmp (a b : List Nat) : Int := strcmp_chars (c_str a) (c_str b)

/-- The string literal `"bmp"`. -/
def bmp_ext : List Nat := [98, 109, 112]

/-- An image source as the decoder receives it: the tag `lv_img_src_get_type` computes (or
`dsc->src_type`), the bytes at `src` read as a path, and the bytes that lie in memory right
before `src` (`before k` is the byte at `fn[-k]`). -/
structure img_src where
  src_type : lv_img_src_t
  fn : List Nat
  before : Nat → Nat

/-- The string at `&fn[strlen(fn) - 3]`. For a path of at least three characters it is the
path's last three characters. For a shorter path the `size_t` subtraction wraps and the pointer
lands `3 - strlen(fn)` bytes in front of the path: the string read there starts with the bytes
preceding the path in memory. -/
def ext_of (s : img_src) : List Nat :=
  if 3 ≤ strlen s.fn then (c_str s.fn).drop (strlen s.fn - 3)
  else ((List.range (3 - strlen s.fn)).map (fun j => s.before (3 - strlen s.fn - j)))
    ++ c_str s.fn

/-! ## The file-system collaborator -/

/-- An open stream: its handle, the bytes of the file and the read cursor. -/
structure lv_fs_file_t where
  id : Nat
  data : List Nat
  pos : Nat
  deriving DecidableEq, Repr

/-- One call made to the file system. -/
inductive fs_call where
  | open_ (path : List Nat) (ok : Bool)
  | read (f : Nat) (btr : Nat)
  | seek (f : Nat) (pos : Nat)
  | close (f : Nat)
  deriving DecidableEq, Repr

/-- State of the file system: the files that can be opened, the streams that are open, the next
fresh handle and the calls made so far (oldest first). -/
structure lv_fs where
  files : List (List Nat × List Nat)
  opened : List lv_fs_file_t
  next_id : Nat
  log : List fs_call
  deriving DecidableEq, Repr

/-- The open stream with handle `f`, if there is one. -/
def find_file : List lv_fs_file_t → Nat → Option lv_fs_file_t
  | [], _ => none
  | s :: rest, f => if s.id = f then some s else find_file rest f

/-- Move the cursor of the stream with handle `f`. -/
def set_pos : List lv_fs_file_t → Nat → Nat → List lv_fs_file_t
  | [], _, _ => []
  | s :: rest, f, p =>
    if s.id = f then { s with pos := p } :: rest else s :: set_pos rest f p

/-- Modelled from the spec: `lv_fs_open` of the host library (open(path, read-only) gives a
handle or a failure). A path found in the file table yields a fresh stream positioned at 0;
any other path yields `NULL`. -/
def lv_fs_open (fs : lv_fs) (path : List Nat) : lv_fs × Option Nat :=
  match fs.files.lookup path with
  | some d =>
    ({ fs with opened := { id := fs.next_id, data := d, pos := 0 } :: fs.opened,
               next_id := fs.next_id + 1,
               log := fs.log ++ [fs_call.open_ path true] }, some fs.next_id)
  | none => ({ fs with log := fs.log ++ [fs_call.open_ path false] }, none)

/-- Modelled from the spec: `lv_fs_read` of the host library (read(handle, buffer, count) gives
the bytes read). It copies the bytes available from the cursor, at most `btr`, to the start of
the buffer, advances the cursor by that many and leaves the rest of the buffer as it was. -/
def lv_fs_read (fs : lv_fs) (f : Nat) (buf : List Nat) (btr : Nat) : lv_fs × List Nat :=
  match find_file fs.opened f with
  | some s =>
    let chunk := (s.data.drop s.pos).take btr
    ({ fs with opened := set_pos fs.opened f (s.pos + chunk.length),
               log := fs.log ++ [fs_call.read f btr] },
     chunk ++ buf.drop chunk.length)
  | none => ({ fs with log := fs.log ++ [fs_call.read f btr] }, buf)

/-- Modelled from the spec: `lv_fs_seek` of the host library (seek(handle, absolute offset)). -/
def lv_fs_seek (fs : lv_fs) (f : Nat) (pos : Nat) : lv_fs :=
  { fs with opened := set_pos fs.opened f pos, log := fs.log ++ [fs_call.seek f pos] }

/-- Modelled from the spec: `lv_fs_close` of the host library (close(handle)). -/
def lv_fs_close (fs : lv_fs) (f : Nat) : lv_fs :=
  { fs with opened := fs.opened.filter (fun s => s.id != f),
            log := fs.log ++ [fs_call.close f] }

/-! ## Data of the decoder -/

/-- Modelled from the spec: `lv_img_header_t` of the host library, the output of the probe
(width: int32, height: int32, pixel format). -/
structure lv_img_header_t where
  w : Int
  h : Int
  always_zero : Nat
  cf : lv_img_cf_t
  deriving DecidableEq, Repr

/-- The session descriptor `bmp_dsc_t`; `f` is the handle of the open stream. -/
structure bmp_dsc_t where
  f : Nat
  px_offset : Nat
  px_width : Int
  px_height : Int
  bpp : Nat
  row_size_bytes : Int
  deriving DecidableEq, Repr

/-- The fields of the host's `lv_img_decoder_dsc_t` the decoder touches. `user_data` is the
allocated `bmp_dsc_t` (or `NULL`), `img_data` the decoded image (or `NULL`). -/
structure lv_img_decoder_dsc_t where
  src : img_src
  user_data : Option bmp_dsc_t
  img_data : Option (List Nat)

/-! ## `decoder_info` -/

/-- The probe callback. `LV_COLOR_DEPTH` is the build-time colour depth, `headers0` the previous
contents of the local array `headers[54]`, `header` the previous contents of `*header`.
`hsize` is `sizeof(lv_img_header_t)` and `hmem k` the byte at address `(uint8_t *)header + k`:
the source computes `header + 28` on the `lv_img_header_t *` parameter, that is the address
`28 * hsize` bytes behind `header`, and copies two bytes from there. -/
def decoder_info (LV_COLOR_DEPTH : Nat) (hsize : Nat) (hmem : Nat → Nat) (headers0 : List Nat)
    (fs : lv_fs) (src : img_src) (header : lv_img_header_t) :
    lv_res_t × lv_img_header_t × lv_fs :=
  if src.src_type = LV_IMG_SRC_FILE then
    if strcmp (ext_of src) bmp_ext = 0 then
      match lv_fs_open fs (c_str src.fn) with
      | (fs1, none) => (LV_RES_INV, header, fs1)
      | (fs1, some f) =>
        let (fs2, headers) := lv_fs_read fs1 f headers0 54
        let header1 := { header with w := le_i32 headers 18 }
        let header2 := { header1 with h := le_i32 headers 22 }
        let fs3 := lv_fs_close fs2 f
        let header3 := { header2 with always_zero := 0 }
        if LV_COLOR_DEPTH = 32 then
          let bpp := hmem (28 * hsize) % 256 + 256 * (hmem (28 * hsize + 1) % 256)
          (LV_RES_OK,
           { header3 with cf := if bpp = 32 then LV_IMG_CF_TRUE_COLOR_ALPHA
                                else LV_IMG_CF_TRUE_COLOR }, fs3)
        else
          (LV_RES_OK, { header3 with cf := LV_IMG_CF_TRUE_COLOR }, fs3)
    else (LV_RES_INV, header, fs)
  else if src.src_type = LV_IMG_SRC_VARIABLE then (LV_RES_INV, header, fs)
  else (LV_RES_INV, header, fs)

/-! ## `decoder_open` -/

/-- The open callback. `header0` is the previous contents of the local array `header[54]`,
`alloc_ok` tells whether `lv_mem_alloc` returns a block (`LV_ASSERT_MEM` is taken as compiled
out, so that the `NULL` test behind it decides). -/
def decoder_open (alloc_ok : Bool) (header0 : List Nat) (fs : lv_fs)
    (dsc : lv_img_decoder_dsc_t) : lv_res_t × lv_img_decoder_dsc_t × lv_fs :=
  if dsc.src.src_type = LV_IMG_SRC_FILE then
    if strcmp (ext_of dsc.src) bmp_ext ≠ 0 then (LV_RES_INV, dsc, fs)
    else
      match lv_fs_open fs (c_str dsc.src.fn) with
      | (fs1, none) => (LV_RES_INV, dsc, fs1)
      | (fs1, some f) =>
        let (fs2, header) := lv_fs_read fs1 f header0 54
        if 66 ≠ byte_at header 0 ∨ 77 ≠ byte_at header 1 then (LV_RES_INV, dsc, fs2)
        else
          let px_offset := le_u32 header 10
          let px_width := le_i32 header 18
          let px_height := le_i32 header 22
          let bpp := le_u16 header 28
          let row_size_bytes := as_int ((bpp * as_uint px_width) % 4294967296 / 8)
          let b : bmp_dsc_t :=
            { f := f, px_offset := px_offset, px_width := px_width, px_height := px_height,
              bpp := bpp, row_size_bytes := row_size_bytes }
          if alloc_ok then
            (LV_RES_OK, { dsc with user_data := some b, img_data := none }, fs2)
          else (LV_RES_INV, { dsc with user_data := none }, fs2)
  else if dsc.src.src_type = LV_IMG_SRC_VARIABLE then (LV_RES_INV, dsc, fs)
  else (LV_RES_INV, dsc, fs)

/-! ## `decoder_read_line` -/

/-- Modelled from the spec: `lv_color32_t` of the host library. The spec names the four raw
bytes of a 32-bit pixel, low to high, blue, green, red, alpha; these are the four channel
members in storage order. -/
structure lv_color32_t where
  blue : Nat
  green : Nat
  red : Nat
  alpha : Nat
  deriving DecidableEq, Repr

/-- The pixel `bufc[i]` of a byte buffer viewed as `lv_color32_t *`. -/
def bufc_get (buf : List Nat) (i : Nat) : lv_color32_t :=
  { blue := buf.getD (4 * i) 0, green := buf.getD (4 * i + 1) 0,
    red := buf.getD (4 * i + 2) 0, alpha := buf.getD (4 * i + 3) 0 }

/-- One turn of the loop in `decoder_read_line`: the four channel stores to `bufc[i]`. -/
def swap_px (buf : List Nat) (i : Nat) : List Nat :=
  let t := bufc_get buf i
  let buf1 := buf.set (4 * i + 2) t.alpha
  let buf2 := buf1.set (4 * i + 1) t.red
  let buf3 := buf2.set (4 * i) t.green
  buf3.set (4 * i + 3) t.blue

/-- The loop `for(i = 0; i < len; i++)` over the pixels of the buffer. -/
def swap_loop (buf : List Nat) (len : Nat) : List Nat :=
  (List.range len).foldl swap_px buf

/-- The stream offset `p` that `decoder_read_line` seeks to. The row index is stored back into
the `lv_coord_t` parameter `y` (modelled from the spec: `lv_coord_t` is a 32-bit `int`), the
offset is accumulated in a `uint32_t`. -/
def read_line_pos (b : bmp_dsc_t) (x y : Int) : Nat :=
  let y1 := as_int (as_uint ((b.px_height - 1) - y))
  let p := as_uint ((b.px_offset : Int) + b.row_size_bytes * y1)
  (p + (as_uint x * (b.bpp / 8)) % 4294967296) % 4294967296

/-- The byte count `len * (b->bpp / 8)` handed to `lv_fs_read` (an `unsigned int` product). -/
def read_line_btr (b : bmp_dsc_t) (len : Int) : Nat :=
  (as_uint len * (b.bpp / 8)) % 4294967296

/-- The read-line callback. The result is `none` when `dsc->user_data` is `NULL` (the source
dereferences it unconditionally); otherwise the return code, the buffer and the file system. -/
def decoder_read_line (LV_COLOR_DEPTH : Nat) (fs : lv_fs) (dsc : lv_img_decoder_dsc_t)
    (x y len : Int) (buf : List Nat) : Option (lv_res_t × List Nat × lv_fs) :=
  match dsc.user_data with
  | none => none
  | some b =>
    let p := read_line_pos b x y
    let fs1 := lv_fs_seek fs b.f p
    let (fs2, buf1) := lv_fs_read fs1 b.f buf (read_line_btr b len)
    let buf2 := if LV_COLOR_DEPTH = 32 ∧ b.bpp = 32 then swap_loop buf1 (as_uint len) else buf1
    some (LV_RES_OK, buf2, fs2)

/-! ## `decoder_close` -/

/-- The close callback: `lv_fs_close(b->f)` followed by `lv_mem_free(dsc->user_data)`. The
result is `none` when `dsc->user_data` is `NULL` (the source dereferences it unconditionally);
otherwise the file system after the close and the block handed to `lv_mem_free`. The decoder
descriptor itself is not written: `dsc->user_data` keeps pointing at the released block. -/
def decoder_close (fs : lv_fs) (dsc : lv_img_decoder_dsc_t) : Option (lv_fs × bmp_dsc_t) :=
  match dsc.user_data with
  | none => none
  | some b => some (lv_fs_close fs b.f, b)

/-- Index of the fetched byte that the loop leaves at index `j` after `n` pixels: inside a
pixel every byte comes from the next higher index and the last one from the first. -/
def rot_src (n j : Nat) : Nat :=
  if j < 4 * n then (if j % 4 = 3 then j - 3 else j + 1) else j

/-! ## The offsets and counts as the specification words them -/

/-- The byte offset of a row request as the specification states it, over the integers:
`pixel_data_offset + row_stride_bytes * flipped_y + x * (bits_per_pixel / 8)` with
`flipped_y = height - 1 - y`. -/
def spec_offset (b : bmp_dsc_t) (x y : Int) : Int :=
  (b.px_offset : Int) + b.row_size_bytes * (b.px_height - 1 - y) + x * ((b.bpp / 8 : Nat) : Int)

/-- The byte count of a row request as the specification states it, over the integers:
`len * (bits_per_pixel / 8)`. -/
def spec_count (b : bmp_dsc_t) (len : Int) : Int := len * ((b.bpp / 8 : Nat) : Int)

/-- The stored row with index `k` of a file: `row_size_bytes` bytes, rows counted from the
pixel-data offset. -/
def stored_row (data : List Nat) (b : bmp_dsc_t) (k : Nat) : List Nat :=
  (data.drop (b.px_offset + b.row_size_bytes.toNat * k)).take b.row_size_bytes.toNat

/-! ## Auxiliary notions for stating the properties of the probe and of open -/

/-- A path ends in the extension: its characters are some stem followed by `bmp`. -/
def ends_in_bmp (fn : List Nat) : Prop := ∃ stem, c_str fn = stem ++ bmp_ext

/-- The local array `header[54]` after `lv_fs_read(f, header, 54, NULL)` on a freshly opened
file holding `data`: the first 54 bytes of the file over the array's previous contents. -/
def header_after_read (data header0 : List Nat) : List Nat :=
  data.take 54 ++ header0.drop (data.take 54).length

/-- The file system after a successful `lv_fs_open` of `path` (holding `data`) followed by the
54-byte header read. -/
def fs_after_header_read (fs : lv_fs) (path data : List Nat) : lv_fs :=
  { fs with
    opened := { id := fs.next_id, data := data, pos := 0 + (data.take 54).length } :: fs.opened,
    next_id := fs.next_id + 1,
    log := fs.log ++ [fs_call.open_ path true, fs_call.read fs.next_id 54] }

/-- The descriptor `decoder_open` builds from the header array for the stream `f`. -/
def dsc_of_header (f : Nat) (header : List Nat) : bmp_dsc_t :=
  { f := f, px_offset := le_u32 header 10, px_width := le_i32 header 18,
    px_height := le_i32 header 22, bpp := le_u16 header 28,
    row_size_bytes :=
      as_int ((le_u16 header 28 * as_uint (le_i32 header 18)) % 4294967296 / 8) }

/-- The output buffer of `decoder_read_line` right after its `lv_fs_read` call, before the
channel loop: the bytes the stream `s` holds from the seek offset, at most the requested count,
over the previous contents of the buffer. -/
def fetched_buf (s : lv_fs_file_t) (b : bmp_dsc_t) (x y len : Int) (buf : List Nat) : List Nat :=
  (s.data.drop (read_line_pos b x y)).take (read_line_btr b len)
    ++ buf.drop ((s.data.drop (read_line_pos b x y)).take (read_line_btr b len)).length

/-! ## Concrete files and sessions used to exercise the model -/

/-- The `k` low bytes of `n`, least significant first. -/
def le_bytes (n : Nat) : Nat → List Nat
  | 0 => []
  | k + 1 => n % 256 :: le_bytes (n / 256) k

/-- A 54-byte bitmap header with magic bytes `m0 m1`, pixel-data offset `off`, width `w`,
height `h` and bit depth `bpp`; every other field is zero. -/
def mk_header (m0 m1 off w h bpp : Nat) : List Nat :=
  [m0, m1] ++ List.replicate 8 0 ++ le_bytes off 4 ++ List.replicate 4 0 ++ le_bytes w 4
    ++ le_bytes h 4 ++ List.replicate 2 0 ++ le_bytes bpp 2 ++ List.replicate 24 0

/-- The path `a.bmp`. -/
def a_bmp : List Nat := [97, 46, 98, 109, 112]

/-- The file source `a.bmp`. -/
def src_a : img_src :=
  { src_type := LV_IMG_SRC_FILE, fn := a_bmp, before := fun _ => 0 }

/-- A file system holding the single file `a.bmp` with the given bytes, nothing open. -/
def fs_with (data : List Nat) : lv_fs :=
  { files := [(a_bmp, data)], opened := [], next_id := 0, log := [] }

/-- A decoder descriptor for `a.bmp` before `decoder_open`. -/
def dsc_a : lv_img_decoder_dsc_t := { src := src_a, user_data := none, img_data := none }

/-- A header value the caller passes to the probe. -/
def header_init : lv_img_header_t :=
  { w := 0, h := 0, always_zero := 0, cf := LV_IMG_CF_UNKNOWN }

/-- A zeroed `n`-byte buffer. -/
def zeros (n : Nat) : List Nat := List.replicate n 0

/-- The 2x2, 24-bpp bitmap of the end-to-end scenario: pixel data at offset 54, stored row 0 is
`1..6`, stored row 1 is `7..12`. -/
def file_2x2 : List Nat := mk_header 66 77 54 2 2 24 ++ [1, 2, 3, 4, 5, 6, 7, 8, 9, 10, 11, 12]

/-- The session `decoder_open` attaches for `file_2x2`. -/
def b_2x2 : bmp_dsc_t :=
  { f := 0, px_offset := 54, px_width := 2, px_height := 2, bpp := 24, row_size_bytes := 6 }

/-- The file system after `decoder_open` of `a.bmp` holding `data`: one stream, cursor at 54. -/
def fs_opened (data : List Nat) : lv_fs :=
  { files := [(a_bmp, data)], opened := [{ id := 0, data := data, pos := 54 }], next_id := 1,
    log := [fs_call.open_ a_bmp true, fs_call.read 0 54] }

/-- A descriptor whose pixel-data offset is the largest 32-bit value. -/
def b_wrap : bmp_dsc_t :=
  { f := 0, px_offset := 4294967295, px_width := 2, px_height := 2, bpp := 24,
    row_size_bytes := 6 }

/-- A decoder descriptor for `a.bmp` carrying the session `b`. -/
def dsc_with (b : bmp_dsc_t) : lv_img_decoder_dsc_t :=
  { src := src_a, user_data := some b, img_data := none }

/-- A 60-byte file whose header declares pixel-data offset `0xFFFFFFFF`, width 1, height 2 and
24 bpp; bytes 2 to 4 (the start of the file-size field) are `60, 61, 62`. -/
def file_wrap : List Nat :=
  [66, 77, 60, 61, 62] ++ (mk_header 66 77 4294967295 1 2 24).drop 5 ++ [1, 2, 3, 4, 5, 6]

/-- The session `decoder_open` attaches for `file_wrap`. -/
def b_file_wrap : bmp_dsc_t :=
  { f := 0, px_offset := 4294967295, px_width := 1, px_height := 2, bpp := 24,
    row_size_bytes := 3 }

/-- A 1x1, 32-bpp bitmap whose single pixel is stored as the bytes `0x10, 0x20, 0x30, 0x40`. -/
def file_px32 : List Nat := mk_header 66 77 54 1 1 32 ++ [16, 32, 48, 64]

/-- The session `decoder_open` attaches for `file_px32`. -/
def b_px32 : bmp_dsc_t :=
  { f := 0, px_offset := 54, px_width := 1, px_height := 1, bpp := 32, row_size_bytes := 4 }

/-- A 2x2, 24-bpp file whose first two bytes are `PK` instead of `BM`. -/
def file_bad_magic : List Nat :=
  mk_header 80 75 54 2 2 24 ++ [1, 2, 3, 4, 5, 6, 7, 8, 9, 10, 11, 12]

/-- The 2x2, 24-bpp bitmap cut off after eight pixel bytes: stored row 1 has only two of its
six bytes. -/
def file_short : List Nat := mk_header 66 77 54 2 2 24 ++ [1, 2, 3, 4, 5, 6, 7, 8]

/-- A four-byte file: the magic bytes and two more. -/
def file_tiny : List Nat := [66, 77, 1, 2]

/-- Previous contents of a 54-byte local array: every byte is 7. -/
def stale54 : List Nat := List.replicate 54 7

/-- Handles are handed out in increasing order, so in every state reached from one without open
streams each open stream carries a handle below the next fresh one. -/
def fs_wf (fs : lv_fs) : Prop := ∀ s ∈ fs.opened, s.id < fs.next_id

/-- The path `x.png`. -/
def x_png : List Nat := [120, 46, 112, 110, 103]

/-- A decoder descriptor for the file source `x.png`. -/
def dsc_png : lv_img_decoder_dsc_t :=
  { src := { src_type := LV_IMG_SRC_FILE, fn := x_png, before := fun _ => 0 },
    user_data := none, img_data := none }

/-- A decoder descriptor for an in-memory source. -/
def dsc_var : lv_img_decoder_dsc_t :=
  { src := { src_type := LV_IMG_SRC_VARIABLE, fn := a_bmp, before := fun _ => 0 },
    user_data := none, img_data := none }

/-- The start index of the extension as the source computes it, over the integers:
`strlen(fn) - 3`. An index below zero lies in front of the path string (as a `size_t` it wraps
to a value beyond every string). -/
def ext_index (fn : List Nat) : Int := (strlen fn : Int) - 3

/-- The two-character file path `mp`, stored right behind a byte `b`. -/
def src_mp : img_src :=
  { src_type := LV_IMG_SRC_FILE, fn := [109, 112], before := fun k => if k = 1 then 98 else 0 }

/-- A decoder descriptor for the source `src_mp`. -/
def dsc_mp : lv_img_decoder_dsc_t := { src := src_mp, user_data := none, img_data := none }

/-- A file system holding the 2x2 bitmap under the path `mp`, nothing open. -/
def fs_mp : lv_fs :=
  { files := [([109, 112], file_2x2)], opened := [], next_id := 0, log := [] }

/-- A 32-bpp bitmap of width `2 ^ 27` and height 1 with its `2 ^ 29` bytes of pixel data at
offset 54. -/
def file_wide : List Nat := mk_header 66 77 54 134217728 1 32 ++ List.replicate 536870912 0

/-- The session `decoder_open` attaches for a file that starts with the header of
`file_wide`. -/
def b_wide : bmp_dsc_t :=
  { f := 0, px_offset := 54, px_width := 134217728, px_height := 1, bpp := 32,
    row_size_bytes := 0 }

/-- A 54-byte file whose header declares width `-1` (`0xFFFFFFFF`), height 2 and 24 bpp. -/
def file_neg_width : List Nat := mk_header 66 77 54 4294967295 2 24

/-- A 54-byte file: the header of a 32-bpp bitmap of width `2 ^ 27` and height 1, without pixel
data. -/
def file_wide_header : List Nat := mk_header 66 77 54 134217728 1 32

/-! ## Lemmas on the channel loop, the stream table and 32-bit arithmetic -/
theorem swap_px_length (buf : List Nat) (i : Nat) : (swap_px buf i).length = buf.length := by
  simp [swap_px]

theorem swap_loop_succ (buf : List Nat) (n : Nat) :
    swap_loop buf (n + 1) = swap_px (swap_loop buf n) n := by
  simp [swap_loop, List.range_succ, List.foldl_append]

theorem swap_loop_length (buf : List Nat) (n : Nat) : (swap_loop buf n).length = buf.length := by
  induction n with
  | zero => simp [swap_loop]
  | succ k ih => rw [swap_loop_succ, swap_px_length, ih]

theorem swap_px_getD (buf : List Nat) (i j : Nat) (h : 4 * i + 3 < buf.length) :
    (swap_px buf i).getD j 0 =
      if j = 4 * i then buf.getD (4 * i + 1) 0
      else if j = 4 * i + 1 then buf.getD (4 * i + 2) 0
      else if j = 4 * i + 2 then buf.getD (4 * i + 3) 0
      else if j = 4 * i + 3 then buf.getD (4 * i) 0
      else buf.getD j 0 := by
  simp only [swap_px, bufc_get, List.getD_eq_getElem?_getD, List.getElem?_set, List.length_set]
  split_ifs <;> first | rfl | omega



theorem swap_loop_getD (raw : List Nat) (n : Nat) (h : 4 * n ≤ raw.length) (j : Nat) :
    (swap_loop raw n).getD j 0 = raw.getD (rot_src n j) 0 := by
  induction n generalizing j with
  | zero => simp [swap_loop, rot_src]
  | succ k ih =>
    have hk : 4 * k ≤ raw.length := by omega
    have hlen : 4 * k + 3 < (swap_loop raw k).length := by rw [swap_loop_length]; omega
    rw [swap_loop_succ, swap_px_getD _ _ _ hlen]
    simp only [ih hk]
    unfold rot_src
    split_ifs <;> first | rfl | omega | (congr 1; omega)

theorem find_file_id (l : List lv_fs_file_t) (f : Nat) (s : lv_fs_file_t)
    (h : find_file l f = some s) : s.id = f := by
  induction l with
  | nil => simp [find_file] at h
  | cons a rest ih =>
    unfold find_file at h
    split_ifs at h with ha
    · cases h; exact ha
    · exact ih h

theorem find_file_set_pos (l : List lv_fs_file_t) (f p : Nat) (s : lv_fs_file_t)
    (h : find_file l f = some s) :
    find_file (set_pos l f p) f = some { s with pos := p } := by
  induction l with
  | nil => simp [find_file] at h
  | cons a rest ih =>
    unfold find_file at h
    unfold set_pos
    split_ifs at h ⊢ with ha
    · cases h; simp [find_file, ha]
    · simp [find_file, ha, ih h]

theorem as_uint_modEq (v : Int) : ((as_uint v : Nat) : Int) ≡ v [ZMOD 4294967296] := by
  unfold as_uint
  rw [Int.toNat_of_nonneg (Int.emod_nonneg _ (by norm_num))]
  exact Int.mod_modEq _ _

theorem as_int_modEq (n : Nat) : as_int n ≡ (n : Int) [ZMOD 4294967296] := by
  unfold as_int Int.ModEq
  split_ifs <;> omega

theorem read_line_pos_eq (b : bmp_dsc_t) (x y : Int) :
    read_line_pos b x y =
      (((b.px_offset : Int) + b.row_size_bytes * (b.px_height - 1 - y)
          + x * ((b.bpp / 8 : Nat) : Int)) % 4294967296).toNat := by
  have h1 : as_int (as_uint ((b.px_height - 1) - y)) ≡ b.px_height - 1 - y [ZMOD 4294967296] :=
    (as_int_modEq _).trans (as_uint_modEq _)
  have h2 : ((as_uint ((b.px_offset : Int)
      + b.row_size_bytes * as_int (as_uint ((b.px_height - 1) - y))) : Nat) : Int)
      ≡ (b.px_offset : Int) + b.row_size_bytes * (b.px_height - 1 - y) [ZMOD 4294967296] :=
    (as_uint_modEq _).trans ((Int.ModEq.refl _).add ((Int.ModEq.refl _).mul h1))
  have h3 : ((as_uint x : Nat) : Int) * ((b.bpp / 8 : Nat) : Int)
      ≡ x * ((b.bpp / 8 : Nat) : Int) [ZMOD 4294967296] :=
    (as_uint_modEq x).mul (Int.ModEq.refl _)
  have h4 := h2.add h3
  unfold read_line_pos
  simp only []
  rw [Nat.add_mod_mod]
  apply Int.ofNat_inj.mp
  rw [Int.toNat_of_nonneg (Int.emod_nonneg _ (by norm_num))]
  push_cast
  exact h4

theorem decoder_read_line_eq (cd : Nat) (fs : lv_fs) (dsc : lv_img_decoder_dsc_t)
    (b : bmp_dsc_t) (s : lv_fs_file_t) (x y len : Int) (buf : List Nat)
    (hb : dsc.user_data = some b) (hs : find_file fs.opened b.f = some s) :
    decoder_read_line cd fs dsc x y len buf =
      some (LV_RES_OK,
        (if cd = 32 ∧ b.bpp = 32 then
          swap_loop ((s.data.drop (read_line_pos b x y)).take (read_line_btr b len)
            ++ buf.drop ((s.data.drop (read_line_pos b x y)).take (read_line_btr b len)).length)
            (as_uint len)
         else (s.data.drop (read_line_pos b x y)).take (read_line_btr b len)
            ++ buf.drop ((s.data.drop (read_line_pos b x y)).take (read_line_btr b len)).length),
        { fs with
          opened := set_pos (set_pos fs.opened b.f (read_line_pos b x y)) b.f
            (read_line_pos b x y
              + ((s.data.drop (read_line_pos b x y)).take (read_line_btr b len)).length),
          log := fs.log ++ [fs_call.seek b.f (read_line_pos b x y),
                            fs_call.read b.f (read_line_btr b len)] }) := by
  unfold decoder_read_line
  rw [hb]
  simp only [lv_fs_seek, lv_fs_read, find_file_set_pos _ _ _ _ hs, List.append_assoc,
    List.singleton_append]

theorem read_line_btr_eq (b : bmp_dsc_t) (len : Int) :
    read_line_btr b len = ((len * ((b.bpp / 8 : Nat) : Int)) % 4294967296).toNat := by
  have h3 : ((as_uint len : Nat) : Int) * ((b.bpp / 8 : Nat) : Int)
      ≡ len * ((b.bpp / 8 : Nat) : Int) [ZMOD 4294967296] :=
    (as_uint_modEq len).mul (Int.ModEq.refl _)
  unfold read_line_btr
  apply Int.ofNat_inj.mp
  rw [Int.toNat_of_nonneg (Int.emod_nonneg _ (by norm_num))]
  push_cast
  exact h3

/-! ## Lemmas on the extension test and on the header read -/

theorem c_str_ne_zero (l : List Nat) : ∀ c ∈ c_str l, c ≠ 0 := by
  intro c hc
  have := List.mem_takeWhile_imp hc
  simpa using this

theorem c_str_of_ne_zero (l : List Nat) (h : ∀ c ∈ l, c ≠ 0) : c_str l = l := by
  unfold c_str
  rw [List.takeWhile_eq_self_iff]
  intro c hc
  simpa using h c hc

theorem ext_of_ends_in_bmp (s : img_src) (h : ends_in_bmp s.fn) : ext_of s = bmp_ext := by
  obtain ⟨stem, hstem⟩ := h
  have hlen : strlen s.fn = stem.length + 3 := by
    unfold strlen; rw [hstem]; simp [bmp_ext]
  unfold ext_of
  rw [if_pos (by omega), hlen, hstem]
  simp

theorem strcmp_ends_in_bmp (s : img_src) (h : ends_in_bmp s.fn) :
    strcmp (ext_of s) bmp_ext = 0 := by
  rw [ext_of_ends_in_bmp s h]
  decide

theorem lv_fs_open_read_eq (fs : lv_fs) (path data header0 : List Nat)
    (hopen : fs.files.lookup path = some data) :
    lv_fs_read (lv_fs_open fs path).1 fs.next_id header0 54
      = (fs_after_header_read fs path data, header_after_read data header0) := by
  unfold lv_fs_open
  rw [hopen]
  simp [lv_fs_read, find_file, set_pos, fs_after_header_read, header_after_read]

theorem decoder_open_file (alloc_ok : Bool) (header0 : List Nat) (fs : lv_fs)
    (dsc : lv_img_decoder_dsc_t) (data : List Nat)
    (hfile : dsc.src.src_type = LV_IMG_SRC_FILE)
    (hext : strcmp (ext_of dsc.src) bmp_ext = 0)
    (hopen : fs.files.lookup (c_str dsc.src.fn) = some data) :
    decoder_open alloc_ok header0 fs dsc =
      if 66 ≠ byte_at (header_after_read data header0) 0
          ∨ 77 ≠ byte_at (header_after_read data header0) 1 then
        (LV_RES_INV, dsc, fs_after_header_read fs (c_str dsc.src.fn) data)
      else if alloc_ok then
        (LV_RES_OK,
         { dsc with user_data := some (dsc_of_header fs.next_id (header_after_read data header0)),
                    img_data := none },
         fs_after_header_read fs (c_str dsc.src.fn) data)
      else (LV_RES_INV, { dsc with user_data := none },
            fs_after_header_read fs (c_str dsc.src.fn) data) := by
  have hrd := lv_fs_open_read_eq fs (c_str dsc.src.fn) data header0 hopen
  have hfst : lv_fs_open fs (c_str dsc.src.fn)
      = ((lv_fs_open fs (c_str dsc.src.fn)).1, some fs.next_id) := by
    unfold lv_fs_open; rw [hopen]
  unfold decoder_open
  rw [if_pos hfile, if_neg (not_not.mpr hext), hfst]
  simp only [hrd, dsc_of_header]

theorem decoder_open_ok_inv (alloc_ok : Bool) (header0 : List Nat) (fs : lv_fs)
    (dsc : lv_img_decoder_dsc_t)
    (h : (decoder_open alloc_ok header0 fs dsc).1 = LV_RES_OK) :
    ∃ data, dsc.src.src_type = LV_IMG_SRC_FILE
      ∧ strcmp (ext_of dsc.src) bmp_ext = 0
      ∧ fs.files.lookup (c_str dsc.src.fn) = some data
      ∧ byte_at (header_after_read data header0) 0 = 66
      ∧ byte_at (header_after_read data header0) 1 = 77
      ∧ alloc_ok = true
      ∧ decoder_open alloc_ok header0 fs dsc =
          (LV_RES_OK,
           { dsc with
             user_data := some (dsc_of_header fs.next_id (header_after_read data header0)),
             img_data := none },
           fs_after_header_read fs (c_str dsc.src.fn) data) := by
  by_cases hfile : dsc.src.src_type = LV_IMG_SRC_FILE
  · by_cases hext : strcmp (ext_of dsc.src) bmp_ext = 0
    · cases hlook : fs.files.lookup (c_str dsc.src.fn) with
      | none =>
        exfalso
        unfold decoder_open at h
        rw [if_pos hfile, if_neg (not_not.mpr hext)] at h
        simp [lv_fs_open, hlook] at h
      | some data =>
        have heq := decoder_open_file alloc_ok header0 fs dsc data hfile hext hlook
        rw [heq] at h ⊢
        by_cases hm : 66 ≠ byte_at (header_after_read data header0) 0
            ∨ 77 ≠ byte_at (header_after_read data header0) 1
        · rw [if_pos hm] at h; cases h
        · rw [if_neg hm] at h ⊢
          cases alloc_ok with
          | false => simp at h
          | true =>
            push_neg at hm
            exact ⟨data, hfile, hext, rfl, hm.1.symm, hm.2.symm, rfl, by simp⟩
    · exfalso
      unfold decoder_open at h
      rw [if_pos hfile, if_pos hext] at h
      cases h
  · exfalso
    unfold decoder_open at h
    rw [if_neg hfile] at h
    split_ifs at h

theorem as_int_of_lt (n : Nat) (h : n < 2147483648) : as_int n = (n : Int) := by
  unfold as_int
  have h1 : n % 4294967296 = n := Nat.mod_eq_of_lt (by omega)
  rw [h1, if_pos h]

theorem as_int_lt (n : Nat) : as_int n < 2147483648 := by
  unfold as_int
  split_ifs <;> omega

theorem as_uint_of_nonneg (v : Int) (h0 : 0 ≤ v) (h1 : v < 4294967296) :
    as_uint v = v.toNat := by
  unfold as_uint
  rw [Int.emod_eq_of_lt h0 h1]

theorem dsc_of_header_row_size_nonneg (f : Nat) (header : List Nat) :
    0 ≤ (dsc_of_header f header).row_size_bytes := by
  have hlt : (le_u16 header 28 * as_uint (le_i32 header 18)) % 4294967296 / 8 < 2147483648 := by
    omega
  simp only [dsc_of_header]
  rw [as_int_of_lt _ hlt]
  exact Int.natCast_nonneg _

/-! ## Lemmas on the probe -/

theorem decoder_info_file (cd hsize : Nat) (hmem : Nat → Nat) (headers0 : List Nat)
    (fs : lv_fs) (src : img_src) (header : lv_img_header_t) (data : List Nat)
    (hfile : src.src_type = LV_IMG_SRC_FILE)
    (hext : strcmp (ext_of src) bmp_ext = 0)
    (hopen : fs.files.lookup (c_str src.fn) = some data) :
    decoder_info cd hsize hmem headers0 fs src header =
      (LV_RES_OK,
       { w := le_i32 (header_after_read data headers0) 18,
         h := le_i32 (header_after_read data headers0) 22,
         always_zero := 0,
         cf := if cd = 32 then
                 (if hmem (28 * hsize) % 256 + 256 * (hmem (28 * hsize + 1) % 256) = 32
                  then LV_IMG_CF_TRUE_COLOR_ALPHA else LV_IMG_CF_TRUE_COLOR)
               else LV_IMG_CF_TRUE_COLOR },
       lv_fs_close (fs_after_header_read fs (c_str src.fn) data) fs.next_id) := by
  have hrd := lv_fs_open_read_eq fs (c_str src.fn) data headers0 hopen
  have hfst : lv_fs_open fs (c_str src.fn)
      = ((lv_fs_open fs (c_str src.fn)).1, some fs.next_id) := by
    unfold lv_fs_open; rw [hopen]
  unfold decoder_info
  rw [if_pos hfile, if_pos hext, hfst]
  simp only [hrd]
  split_ifs <;> rfl

theorem byte_at_header_after_read (data header0 : List Nat) (i : Nat)
    (hi : i < 54) (hd : i < data.length) :
    byte_at (header_after_read data header0) i = byte_at data i := by
  unfold byte_at header_after_read
  have h1 : i < (data.take 54).length := by rw [List.length_take]; omega
  rw [List.getD_eq_getElem?_getD, List.getD_eq_getElem?_getD,
    List.getElem?_append_left h1, List.getElem?_take_of_lt hi]

theorem le_u32_header_after_read (data header0 : List Nat) (off : Nat)
    (hoff : off + 3 < 54) (hd : off + 3 < data.length) :
    le_u32 (header_after_read data header0) off = le_u32 data off := by
  unfold le_u32
  rw [byte_at_header_after_read _ _ off (by omega) (by omega),
    byte_at_header_after_read _ _ (off + 1) (by omega) (by omega),
    byte_at_header_after_read _ _ (off + 2) (by omega) (by omega),
    byte_at_header_after_read _ _ (off + 3) (by omega) (by omega)]

theorem le_u16_header_after_read (data header0 : List Nat) (off : Nat)
    (hoff : off + 1 < 54) (hd : off + 1 < data.length) :
    le_u16 (header_after_read data header0) off = le_u16 data off := by
  unfold le_u16
  rw [byte_at_header_after_read _ _ off (by omega) (by omega),
    byte_at_header_after_read _ _ (off + 1) (by omega) (by omega)]

theorem getD_of_take_drop (l bs : List Nat) (off i a : Nat)
    (h : (l.drop off).take 4 = bs) (hi : i < 4) (hb : bs[i]? = some a) :
    l.getD (off + i) 0 = a := by
  have h1 : ((l.drop off).take 4)[i]? = some a := by rw [h]; exact hb
  rw [List.getElem?_take_of_lt hi, List.getElem?_drop] at h1
  rw [List.getD_eq_getElem?_getD, h1]
  rfl

theorem le_i32_of_le_bytes (l : List Nat) (off : Nat) (v : Int)
    (h0 : -2147483648 ≤ v) (h1 : v < 2147483648)
    (h : (l.drop off).take 4 = le_bytes (as_uint v) 4) : le_i32 l off = v := by
  have hb0 := getD_of_take_drop l _ off 0 (as_uint v % 256) h (by norm_num) rfl
  have hb1 := getD_of_take_drop l _ off 1 (as_uint v / 256 % 256) h (by norm_num) rfl
  have hb2 := getD_of_take_drop l _ off 2 (as_uint v / 256 / 256 % 256) h (by norm_num) rfl
  have hb3 := getD_of_take_drop l _ off 3 (as_uint v / 256 / 256 / 256 % 256) h
    (by norm_num) rfl
  have hlt : as_uint v < 4294967296 := by unfold as_uint; omega
  have hu : le_u32 l off = as_uint v := by
    unfold le_u32 byte_at
    rw [Nat.add_zero] at hb0
    rw [hb0, hb1, hb2, hb3]
    omega
  unfold le_i32
  rw [hu]
  unfold as_int as_uint
  split_ifs <;> omega

/-! ## C1: the row flip -/

/-- C1, as stated, fails: `file_wrap` opens as a session of height 2 and width 1 whose stored
row 1 would start at offset `4294967298`, beyond the 60-byte file (the stored row is empty);
reading logical row 0 seeks to offset `2` instead and returns bytes 2 to 4 of the file
header. -/
theorem C1_counterexample :
    (decoder_open true (zeros 54) (fs_with file_wrap) dsc_a).1 = LV_RES_OK
    ∧ (decoder_open true (zeros 54) (fs_with file_wrap) dsc_a).2.1.user_data = some b_file_wrap
    ∧ (decoder_open true (zeros 54) (fs_with file_wrap) dsc_a).2.2 = fs_opened file_wrap
    ∧ (0 : Int) < b_file_wrap.px_height ∧ (0 : Int) < b_file_wrap.px_width
    ∧ stored_row file_wrap b_file_wrap 1 = []
    ∧ (decoder_read_line 16 (fs_opened file_wrap) (dsc_with b_file_wrap) 0 0 1 [9, 9, 9]).map
        (fun r => (r.1, r.2.1, r.2.2.log))
      = some (LV_RES_OK, [60, 61, 62],
          [fs_call.open_ a_bmp true, fs_call.read 0 54, fs_call.seek 0 2,
           fs_call.read 0 3]) := by
  decide

/-- C1, amended: for every session `decoder_open` attaches with height `H > 0` and width
`W > 0`, every logical row `0 ≤ y < H` whose flipped row starts below `2 ^ 32`
(`px_offset + row_size_bytes * (H - 1 - y) < 2 ^ 32`) and every state in which the session's
stream is open, `decoder_read_line(x = 0, y, len = W)` returns `LV_RES_OK` after seeking to the
first byte of the stored row with index `H - 1 - y` (rows counted from the pixel-data offset in
units of `row_size_bytes`) and requesting `W * (bpp / 8)` bytes (modulo `2 ^ 32`); the bytes the
stream holds there are put at the start of the buffer ahead of the channel step. When `bpp` is
a multiple of 8 and `bpp * W < 2 ^ 32` those bytes are exactly that stored row. -/
theorem C1_row_flip (alloc_ok : Bool) (header0 : List Nat) (fs : lv_fs)
    (dsc dsc1 : lv_img_decoder_dsc_t) (fs1 : lv_fs) (b : bmp_dsc_t)
    (cd : Nat) (fsx : lv_fs) (s : lv_fs_file_t) (y : Int) (buf : List Nat)
    (hopen : decoder_open alloc_ok header0 fs dsc = (LV_RES_OK, dsc1, fs1))
    (hb : dsc1.user_data = some b)
    (hH : 0 < b.px_height) (hW : 0 < b.px_width) (hy0 : 0 ≤ y) (hy : y < b.px_height)
    (hs : find_file fsx.opened b.f = some s)
    (hnowrap : (b.px_offset : Int) + b.row_size_bytes * (b.px_height - 1 - y) < 4294967296) :
    ∃ out fs2,
      decoder_read_line cd fsx dsc1 0 y b.px_width buf = some (LV_RES_OK, out, fs2)
      ∧ fs2.log = fsx.log ++
          [fs_call.seek b.f (b.px_offset + b.row_size_bytes.toNat * (b.px_height - 1 - y).toNat),
           fs_call.read b.f (spec_count b b.px_width % 4294967296).toNat]
      ∧ (¬ (cd = 32 ∧ b.bpp = 32) →
          out = (s.data.drop
                  (b.px_offset + b.row_size_bytes.toNat * (b.px_height - 1 - y).toNat)).take
                  (spec_count b b.px_width % 4294967296).toNat
                ++ buf.drop ((s.data.drop
                  (b.px_offset + b.row_size_bytes.toNat * (b.px_height - 1 - y).toNat)).take
                  (spec_count b b.px_width % 4294967296).toNat).length)
      ∧ (b.bpp % 8 = 0 → (b.bpp : Int) * b.px_width < 4294967296 →
          (s.data.drop
              (b.px_offset + b.row_size_bytes.toNat * (b.px_height - 1 - y).toNat)).take
              (spec_count b b.px_width % 4294967296).toNat
            = stored_row s.data b (b.px_height - 1 - y).toNat) := by
  -- the descriptor comes from the header
  obtain ⟨data, -, -, -, -, -, -, heq⟩ :=
    decoder_open_ok_inv alloc_ok header0 fs dsc (by rw [hopen])
  rw [hopen] at heq
  have hd1 : dsc1.user_data
      = some (dsc_of_header fs.next_id (header_after_read data header0)) := by
    have := congrArg (fun r => r.2.1.user_data) heq
    simpa using this
  have hbeq : b = dsc_of_header fs.next_id (header_after_read data header0) := by
    rw [hb] at hd1; exact Option.some.inj hd1
  have hrs : 0 ≤ b.row_size_bytes := by
    rw [hbeq]; exact dsc_of_header_row_size_nonneg _ _
  have hk : 0 ≤ b.px_height - 1 - y := by omega
  -- the seek offset
  have hoff : (b.px_offset : Int) + b.row_size_bytes * (b.px_height - 1 - y)
      = ((b.px_offset + b.row_size_bytes.toNat * (b.px_height - 1 - y).toNat : Nat) : Int) := by
    push_cast
    rw [Int.toNat_of_nonneg hrs, Int.toNat_of_nonneg hk]
  have hp : read_line_pos b 0 y
      = b.px_offset + b.row_size_bytes.toNat * (b.px_height - 1 - y).toNat := by
    rw [read_line_pos_eq, zero_mul, add_zero]
    have h0 : 0 ≤ (b.px_offset : Int) + b.row_size_bytes * (b.px_height - 1 - y) := by
      rw [hoff]; exact Int.natCast_nonneg _
    rw [Int.emod_eq_of_lt h0 hnowrap, hoff, Int.toNat_natCast]
  have hn : read_line_btr b b.px_width = (spec_count b b.px_width % 4294967296).toNat :=
    read_line_btr_eq b b.px_width
  rw [decoder_read_line_eq cd fsx dsc1 b s 0 y b.px_width buf hb hs, hp, hn]
  refine ⟨_, _, rfl, rfl, ?_, ?_⟩
  · intro hno
    rw [if_neg hno]
  · intro h8 hprod
    -- the request is exactly one stored row
    have hWlt : b.px_width < 2147483648 := by
      rw [hbeq]; exact as_int_lt _
    have hcnt : (spec_count b b.px_width % 4294967296).toNat = b.row_size_bytes.toNat := by
      obtain ⟨w, hw⟩ : ∃ w : Nat, b.px_width = (w : Int) := ⟨b.px_width.toNat, by omega⟩
      obtain ⟨q, hq⟩ : ∃ q : Nat, b.bpp = 8 * q := ⟨b.bpp / 8, by omega⟩
      have hqw : 8 * (q * w) < 4294967296 := by
        have : ((8 * q * w : Nat) : Int) < 4294967296 := by
          push_cast; rw [hq, hw] at hprod; push_cast at hprod; linarith
        have h2 : 8 * q * w < 4294967296 := by exact_mod_cast this
        rw [Nat.mul_assoc] at h2; exact h2
      have hrow : b.row_size_bytes = ((q * w : Nat) : Int) := by
        have hbw : (dsc_of_header fs.next_id (header_after_read data header0)).row_size_bytes
            = as_int ((b.bpp * as_uint b.px_width) % 4294967296 / 8) := by
          rw [hbeq]; rfl
        rw [hbeq] at hbw ⊢
        rw [hbw, ← hbeq, hw, hq, as_uint_of_nonneg _ (by omega) (by omega), Int.toNat_natCast,
          Nat.mul_assoc, Nat.mod_eq_of_lt hqw, Nat.mul_div_cancel_left _ (by norm_num)]
        exact as_int_of_lt _ (by omega)
      have hsc : spec_count b b.px_width = ((q * w : Nat) : Int) := by
        unfold spec_count
        rw [hw, hq, Nat.mul_div_cancel_left _ (by norm_num)]
        push_cast; ring
      rw [hsc, hrow, Int.toNat_natCast, Int.emod_eq_of_lt (Int.natCast_nonneg _) (by omega),
        Int.toNat_natCast]
    rw [hcnt]
    rfl

/-- C1 (amended) at the 2x2, 24-bpp file with pixel data at offset 54: the session
`decoder_open` attaches reads logical row 0 from the start of stored row 1 (offset 60), and the
six bytes fetched are stored row 1. -/
theorem C1_row_flip_witness :
    (decoder_open true (zeros 54) (fs_with file_2x2) dsc_a
        = (LV_RES_OK, dsc_with b_2x2, fs_opened file_2x2)
      ∧ (dsc_with b_2x2).user_data = some b_2x2
      ∧ 0 < b_2x2.px_height ∧ 0 < b_2x2.px_width ∧ (0 : Int) ≤ 0 ∧ 0 < b_2x2.px_height
      ∧ find_file (fs_opened file_2x2).opened b_2x2.f
          = some { id := 0, data := file_2x2, pos := 54 }
      ∧ (b_2x2.px_offset : Int) + b_2x2.row_size_bytes * (b_2x2.px_height - 1 - 0) < 4294967296)
    ∧ ∃ out fs2,
      decoder_read_line 16 (fs_opened file_2x2) (dsc_with b_2x2) 0 0 b_2x2.px_width (zeros 6)
        = some (LV_RES_OK, out, fs2)
      ∧ fs2.log = (fs_opened file_2x2).log ++
          [fs_call.seek b_2x2.f
             (b_2x2.px_offset + b_2x2.row_size_bytes.toNat * (b_2x2.px_height - 1 - 0).toNat),
           fs_call.read b_2x2.f (spec_count b_2x2 b_2x2.px_width % 4294967296).toNat]
      ∧ (¬ (16 = 32 ∧ b_2x2.bpp = 32) →
          out = (file_2x2.drop
                  (b_2x2.px_offset
                    + b_2x2.row_size_bytes.toNat * (b_2x2.px_height - 1 - 0).toNat)).take
                  (spec_count b_2x2 b_2x2.px_width % 4294967296).toNat
                ++ (zeros 6).drop ((file_2x2.drop
                  (b_2x2.px_offset
                    + b_2x2.row_size_bytes.toNat * (b_2x2.px_height - 1 - 0).toNat)).take
                  (spec_count b_2x2 b_2x2.px_width % 4294967296).toNat).length)
      ∧ (b_2x2.bpp % 8 = 0 → (b_2x2.bpp : Int) * b_2x2.px_width < 4294967296 →
          (file_2x2.drop
              (b_2x2.px_offset
                + b_2x2.row_size_bytes.toNat * (b_2x2.px_height - 1 - 0).toNat)).take
              (spec_count b_2x2 b_2x2.px_width % 4294967296).toNat
            = stored_row file_2x2 b_2x2 (b_2x2.px_height - 1 - 0).toNat) :=
  ⟨⟨rfl, rfl, by decide, by decide, by decide, by decide, rfl, by decide⟩,
   C1_row_flip true (zeros 54) (fs_with file_2x2) dsc_a (dsc_with b_2x2) (fs_opened file_2x2)
     b_2x2 16 (fs_opened file_2x2) { id := 0, data := file_2x2, pos := 54 } 0 (zeros 6)
     rfl rfl (by decide) (by decide) (by decide) (by decide) rfl (by decide)⟩

/-! ## C2: the seek offset and the read count of `decoder_read_line` -/

/-- C2, as stated, fails: for the descriptor `b_wrap` (pixel-data offset `0xFFFFFFFF`, 2x2,
24 bpp, stride 6) the request `x = 0, y = 0, len = 2` is in range and the offset the claim
names is `4294967301`, yet the call seeks the stream to offset `5`. -/
theorem C2_counterexample :
    ((0 : Int) ≤ 0 ∧ (0 : Int) < b_wrap.px_height ∧ (0 : Int) + 2 ≤ b_wrap.px_width)
    ∧ spec_offset b_wrap 0 0 = 4294967301
    ∧ (decoder_read_line 16 (fs_opened file_2x2) (dsc_with b_wrap) 0 0 2 (zeros 6)).map
        (fun r => r.2.2.log)
      = some [fs_call.open_ a_bmp true, fs_call.read 0 54, fs_call.seek 0 5,
              fs_call.read 0 6] := by
  decide

/-- C2, amended: for every session descriptor whose stream is open and every request,
`decoder_read_line` returns `LV_RES_OK` after exactly two calls on the stream: a seek to the
specification's offset reduced modulo `2 ^ 32`, then a read request of the specification's
count reduced modulo `2 ^ 32`. The bytes the stream holds from that offset (at most the count)
are placed at the start of the output buffer, ahead of the channel step. Whenever the
specification's offset, respectively count, lies in `[0, 2 ^ 32)` the reduction changes
nothing. -/
theorem C2_read_line_seeks_then_reads (cd : Nat) (fs : lv_fs) (dsc : lv_img_decoder_dsc_t)
    (b : bmp_dsc_t) (s : lv_fs_file_t) (x y len : Int) (buf : List Nat)
    (hb : dsc.user_data = some b) (hs : find_file fs.opened b.f = some s) :
    ∃ out fs1,
      decoder_read_line cd fs dsc x y len buf = some (LV_RES_OK, out, fs1)
      ∧ fs1.log = fs.log ++
          [fs_call.seek b.f (spec_offset b x y % 4294967296).toNat,
           fs_call.read b.f (spec_count b len % 4294967296).toNat]
      ∧ (¬ (cd = 32 ∧ b.bpp = 32) →
          out = (s.data.drop (spec_offset b x y % 4294967296).toNat).take
                  (spec_count b len % 4294967296).toNat
                ++ buf.drop ((s.data.drop (spec_offset b x y % 4294967296).toNat).take
                  (spec_count b len % 4294967296).toNat).length)
      ∧ (0 ≤ spec_offset b x y → spec_offset b x y < 4294967296 →
          (((spec_offset b x y % 4294967296).toNat : Nat) : Int) = spec_offset b x y)
      ∧ (0 ≤ spec_count b len → spec_count b len < 4294967296 →
          (((spec_count b len % 4294967296).toNat : Nat) : Int) = spec_count b len) := by
  have hp : read_line_pos b x y = (spec_offset b x y % 4294967296).toNat :=
    read_line_pos_eq b x y
  have hn : read_line_btr b len = (spec_count b len % 4294967296).toNat :=
    read_line_btr_eq b len
  rw [decoder_read_line_eq cd fs dsc b s x y len buf hb hs, hp, hn]
  refine ⟨_, _, rfl, rfl, ?_, ?_, ?_⟩
  · intro hno
    rw [if_neg hno]
  · intro h0 h1
    rw [Int.emod_eq_of_lt h0 h1, Int.toNat_of_nonneg h0]
  · intro h0 h1
    rw [Int.emod_eq_of_lt h0 h1, Int.toNat_of_nonneg h0]

/-- C2 (amended) at the 2x2 file: logical row 0 of the open session seeks to 60 and requests
6 bytes. -/
theorem C2_read_line_seeks_then_reads_witness :
    ((dsc_with b_2x2).user_data = some b_2x2
      ∧ find_file (fs_opened file_2x2).opened b_2x2.f
          = some { id := 0, data := file_2x2, pos := 54 })
    ∧ ∃ out fs1,
      decoder_read_line 16 (fs_opened file_2x2) (dsc_with b_2x2) 0 0 2 (zeros 6)
        = some (LV_RES_OK, out, fs1)
      ∧ fs1.log = (fs_opened file_2x2).log ++
          [fs_call.seek b_2x2.f (spec_offset b_2x2 0 0 % 4294967296).toNat,
           fs_call.read b_2x2.f (spec_count b_2x2 2 % 4294967296).toNat]
      ∧ (¬ (16 = 32 ∧ b_2x2.bpp = 32) →
          out = (file_2x2.drop (spec_offset b_2x2 0 0 % 4294967296).toNat).take
                  (spec_count b_2x2 2 % 4294967296).toNat
                ++ (zeros 6).drop ((file_2x2.drop (spec_offset b_2x2 0 0 % 4294967296).toNat).take
                  (spec_count b_2x2 2 % 4294967296).toNat).length)
      ∧ (0 ≤ spec_offset b_2x2 0 0 → spec_offset b_2x2 0 0 < 4294967296 →
          (((spec_offset b_2x2 0 0 % 4294967296).toNat : Nat) : Int) = spec_offset b_2x2 0 0)
      ∧ (0 ≤ spec_count b_2x2 2 → spec_count b_2x2 2 < 4294967296 →
          (((spec_count b_2x2 2 % 4294967296).toNat : Nat) : Int) = spec_count b_2x2 2) :=
  ⟨⟨rfl, rfl⟩,
   C2_read_line_seeks_then_reads 16 (fs_opened file_2x2) (dsc_with b_2x2) b_2x2
     { id := 0, data := file_2x2, pos := 54 } 0 0 2 (zeros 6) rfl rfl⟩

/-! ## C3: the channel loop -/

/-- C3, as stated, fails: with `LV_COLOR_DEPTH == 32` and a 32-bpp session, the pixel stored as
`[0x10, 0x20, 0x30, 0x40]` comes out as `[0x20, 0x30, 0x40, 0x10]`, not as
`[0x40, 0x10, 0x20, 0x30]`. -/
theorem C3_counterexample :
    (decoder_open true (zeros 54) (fs_with file_px32) dsc_a).2.1.user_data = some b_px32
    ∧ (decoder_open true (zeros 54) (fs_with file_px32) dsc_a).2.2 = fs_opened file_px32
    ∧ (decoder_read_line 32 (fs_opened file_px32) (dsc_with b_px32) 0 0 1 (zeros 4)).map
        (fun r => (r.1, r.2.1)) = some (LV_RES_OK, [32, 48, 64, 16])
    ∧ ([32, 48, 64, 16] : List Nat) ≠ [64, 16, 32, 48] := by
  decide

/-- C3, amended: with `LV_COLOR_DEPTH == 32` and a session whose `bpp` is 32, for every request
of `0 ≤ len < 2 ^ 32` pixels into a buffer of at least `4 * len` bytes, `decoder_read_line`
returns `LV_RES_OK` and turns every 4-byte pixel `[c0, c1, c2, c3]` of the fetched buffer into
`[c1, c2, c3, c0]`: each channel moves one position towards the front and the first wraps to the
end. Bytes behind the `len` pixels are untouched, and when the stream holds the `4 * len` bytes
requested the pixels rotated are the bytes of the file from the seek offset. -/
theorem C3_channel_rotation (fs : lv_fs) (dsc : lv_img_decoder_dsc_t) (b : bmp_dsc_t)
    (s : lv_fs_file_t) (x y len : Int) (buf : List Nat)
    (hb : dsc.user_data = some b) (hs : find_file fs.opened b.f = some s)
    (hbpp : b.bpp = 32) (hlen0 : 0 ≤ len) (hlen : len < 4294967296)
    (hbuf : 4 * len.toNat ≤ buf.length) :
    ∃ out fs1,
      decoder_read_line 32 fs dsc x y len buf = some (LV_RES_OK, out, fs1)
      ∧ out.length = (fetched_buf s b x y len buf).length
      ∧ (∀ i, i < len.toNat →
          out.getD (4 * i) 0 = (fetched_buf s b x y len buf).getD (4 * i + 1) 0
          ∧ out.getD (4 * i + 1) 0 = (fetched_buf s b x y len buf).getD (4 * i + 2) 0
          ∧ out.getD (4 * i + 2) 0 = (fetched_buf s b x y len buf).getD (4 * i + 3) 0
          ∧ out.getD (4 * i + 3) 0 = (fetched_buf s b x y len buf).getD (4 * i) 0)
      ∧ (∀ j, 4 * len.toNat ≤ j →
          out.getD j 0 = (fetched_buf s b x y len buf).getD j 0)
      ∧ (4 * len.toNat < 4294967296 →
          read_line_pos b x y + 4 * len.toNat ≤ s.data.length →
          (fetched_buf s b x y len buf).take (4 * len.toNat)
            = (s.data.drop (read_line_pos b x y)).take (4 * len.toNat)) := by
  have hraw : 4 * len.toNat ≤ (fetched_buf s b x y len buf).length := by
    simp only [fetched_buf, List.length_append, List.length_drop]
    omega
  have hu : as_uint len = len.toNat := as_uint_of_nonneg len hlen0 hlen
  rw [decoder_read_line_eq 32 fs dsc b s x y len buf hb hs, if_pos ⟨rfl, hbpp⟩, hu]
  refine ⟨_, _, rfl, ?_, ?_, ?_, ?_⟩
  · exact swap_loop_length _ _
  · intro i hi
    have h := swap_loop_getD (fetched_buf s b x y len buf) len.toNat hraw
    refine ⟨?_, ?_, ?_, ?_⟩
    · have := h (4 * i); unfold rot_src at this
      rw [if_pos (by omega), if_neg (by omega)] at this; exact this
    · have := h (4 * i + 1); unfold rot_src at this
      rw [if_pos (by omega), if_neg (by omega)] at this; exact this
    · have := h (4 * i + 2); unfold rot_src at this
      rw [if_pos (by omega), if_neg (by omega)] at this; exact this
    · have := h (4 * i + 3); unfold rot_src at this
      rw [if_pos (by omega), if_pos (by omega), Nat.add_sub_cancel] at this
      exact this
  · intro j hj
    have := swap_loop_getD (fetched_buf s b x y len buf) len.toNat hraw j
    unfold rot_src at this
    rw [if_neg (by omega)] at this; exact this
  · intro h32 hfile
    have hn : read_line_btr b len = 4 * len.toNat := by
      unfold read_line_btr
      rw [hu, hbpp]
      omega
    have hcl : ((s.data.drop (read_line_pos b x y)).take (4 * len.toNat)).length
        = 4 * len.toNat := by
      rw [List.length_take, List.length_drop]; omega
    unfold fetched_buf
    rw [hn, List.take_append_of_le_length (by omega), List.take_take, Nat.min_self]

/-- C3 (amended) at the 1x1, 32-bpp file: the single pixel of the open session is rotated one
position towards the front. -/
theorem C3_channel_rotation_witness :
    ((dsc_with b_px32).user_data = some b_px32
      ∧ find_file (fs_opened file_px32).opened b_px32.f
          = some { id := 0, data := file_px32, pos := 54 }
      ∧ b_px32.bpp = 32 ∧ (0 : Int) ≤ 1 ∧ (1 : Int) < 4294967296
      ∧ 4 * (1 : Int).toNat ≤ (zeros 4).length)
    ∧ ∃ out fs1,
      decoder_read_line 32 (fs_opened file_px32) (dsc_with b_px32) 0 0 1 (zeros 4)
        = some (LV_RES_OK, out, fs1)
      ∧ out.length
          = (fetched_buf { id := 0, data := file_px32, pos := 54 } b_px32 0 0 1 (zeros 4)).length
      ∧ (∀ i, i < (1 : Int).toNat →
          out.getD (4 * i) 0
            = (fetched_buf { id := 0, data := file_px32, pos := 54 } b_px32 0 0 1
                (zeros 4)).getD (4 * i + 1) 0
          ∧ out.getD (4 * i + 1) 0
            = (fetched_buf { id := 0, data := file_px32, pos := 54 } b_px32 0 0 1
                (zeros 4)).getD (4 * i + 2) 0
          ∧ out.getD (4 * i + 2) 0
            = (fetched_buf { id := 0, data := file_px32, pos := 54 } b_px32 0 0 1
                (zeros 4)).getD (4 * i + 3) 0
          ∧ out.getD (4 * i + 3) 0
            = (fetched_buf { id := 0, data := file_px32, pos := 54 } b_px32 0 0 1
                (zeros 4)).getD (4 * i) 0)
      ∧ (∀ j, 4 * (1 : Int).toNat ≤ j →
          out.getD j 0
            = (fetched_buf { id := 0, data := file_px32, pos := 54 } b_px32 0 0 1
                (zeros 4)).getD j 0)
      ∧ (4 * (1 : Int).toNat < 4294967296 →
          read_line_pos b_px32 0 0 + 4 * (1 : Int).toNat ≤ file_px32.length →
          (fetched_buf { id := 0, data := file_px32, pos := 54 } b_px32 0 0 1 (zeros 4)).take
              (4 * (1 : Int).toNat)
            = (file_px32.drop (read_line_pos b_px32 0 0)).take (4 * (1 : Int).toNat)) :=
  ⟨⟨rfl, rfl, rfl, by decide, by decide, by decide⟩,
   C3_channel_rotation (fs_opened file_px32) (dsc_with b_px32) b_px32
     { id := 0, data := file_px32, pos := 54 } 0 0 1 (zeros 4)
     rfl rfl rfl (by decide) (by decide) (by decide)⟩

/-! ## C4: the pixel format the probe reports -/

/-- C4, the code at the failing input: with `LV_COLOR_DEPTH == 32`, the probe of a file whose
bit-depth field at offset 28 is 32 reports `TRUE_COLOR` when the two bytes at
`header + 28` (an address computed from the output pointer, 112 bytes behind it for a 4-byte
`lv_img_header_t`) are zero, and the probe of a 24-bpp file reports `TRUE_COLOR_ALPHA` when
those bytes hold 32. The bit-depth field of the file does not reach the result. -/
theorem C4_info_format_reads_output_pointer :
    le_u16 file_px32 28 = 32
    ∧ decoder_info 32 4 (fun _ => 0) (zeros 54) (fs_with file_px32) src_a header_init
        = (LV_RES_OK, { w := 1, h := 1, always_zero := 0, cf := LV_IMG_CF_TRUE_COLOR },
           lv_fs_close (fs_opened file_px32) 0)
    ∧ le_u16 file_2x2 28 = 24
    ∧ decoder_info 32 4 (fun k => if k = 112 then 32 else 0) (zeros 54) (fs_with file_2x2)
          src_a header_init
        = (LV_RES_OK, { w := 2, h := 2, always_zero := 0, cf := LV_IMG_CF_TRUE_COLOR_ALPHA },
           lv_fs_close (fs_opened file_2x2) 0) := by
  decide

/-! ## C5: the size the probe reports -/

/-- C5: for every file-path source ending in `bmp` whose file opens and holds at least 54
bytes, `decoder_info` returns `LV_RES_OK` with `w` the little-endian signed 32-bit integer at
byte offset 18 of the file and `h` the one at offset 22; whenever the file stores the 32-bit
integers `W` and `H` in little-endian order at these offsets, it reports exactly `W` and
`H`. -/
theorem C5_info_reports_width_height (cd hsize : Nat) (hmem : Nat → Nat)
    (headers0 : List Nat) (fs : lv_fs) (src : img_src) (header : lv_img_header_t)
    (data : List Nat)
    (hfile : src.src_type = LV_IMG_SRC_FILE) (hext : ends_in_bmp src.fn)
    (hopen : fs.files.lookup (c_str src.fn) = some data) (hlen : 54 ≤ data.length) :
    (decoder_info cd hsize hmem headers0 fs src header).1 = LV_RES_OK
    ∧ (decoder_info cd hsize hmem headers0 fs src header).2.1.w = le_i32 data 18
    ∧ (decoder_info cd hsize hmem headers0 fs src header).2.1.h = le_i32 data 22
    ∧ ∀ W H : Int, -2147483648 ≤ W → W < 2147483648 → -2147483648 ≤ H → H < 2147483648 →
        (data.drop 18).take 4 = le_bytes (as_uint W) 4 →
        (data.drop 22).take 4 = le_bytes (as_uint H) 4 →
        (decoder_info cd hsize hmem headers0 fs src header).2.1.w = W
        ∧ (decoder_info cd hsize hmem headers0 fs src header).2.1.h = H := by
  rw [decoder_info_file cd hsize hmem headers0 fs src header data hfile
    (strcmp_ends_in_bmp src hext) hopen]
  have hw : le_i32 (header_after_read data headers0) 18 = le_i32 data 18 := by
    unfold le_i32
    rw [le_u32_header_after_read data headers0 18 (by norm_num) (by omega)]
  have hh : le_i32 (header_after_read data headers0) 22 = le_i32 data 22 := by
    unfold le_i32
    rw [le_u32_header_after_read data headers0 22 (by norm_num) (by omega)]
  refine ⟨rfl, hw, hh, ?_⟩
  intro W H hW0 hW1 hH0 hH1 hWb hHb
  exact ⟨hw.trans (le_i32_of_le_bytes data 18 W hW0 hW1 hWb),
    hh.trans (le_i32_of_le_bytes data 22 H hH0 hH1 hHb)⟩

/-- C5 at the 2x2 file `a.bmp`: the probe returns `LV_RES_OK` with the width and height stored
at offsets 18 and 22. -/
theorem C5_info_reports_width_height_witness :
    (src_a.src_type = LV_IMG_SRC_FILE ∧ ends_in_bmp src_a.fn
      ∧ (fs_with file_2x2).files.lookup (c_str src_a.fn) = some file_2x2
      ∧ 54 ≤ file_2x2.length)
    ∧ (decoder_info 16 4 (fun _ => 0) (zeros 54) (fs_with file_2x2) src_a header_init).1
        = LV_RES_OK
    ∧ (decoder_info 16 4 (fun _ => 0) (zeros 54) (fs_with file_2x2) src_a header_init).2.1.w
        = le_i32 file_2x2 18
    ∧ (decoder_info 16 4 (fun _ => 0) (zeros 54) (fs_with file_2x2) src_a header_init).2.1.h
        = le_i32 file_2x2 22
    ∧ ∀ W H : Int, -2147483648 ≤ W → W < 2147483648 → -2147483648 ≤ H → H < 2147483648 →
        (file_2x2.drop 18).take 4 = le_bytes (as_uint W) 4 →
        (file_2x2.drop 22).take 4 = le_bytes (as_uint H) 4 →
        (decoder_info 16 4 (fun _ => 0) (zeros 54) (fs_with file_2x2) src_a header_init).2.1.w
          = W
        ∧ (decoder_info 16 4 (fun _ => 0) (zeros 54) (fs_with file_2x2) src_a header_init).2.1.h
          = H :=
  ⟨⟨rfl, ⟨[97, 46], rfl⟩, rfl, by decide⟩,
   C5_info_reports_width_height 16 4 (fun _ => 0) (zeros 54) (fs_with file_2x2) src_a
     header_init file_2x2 rfl ⟨[97, 46], rfl⟩ rfl (by decide)⟩

/-! ## C6: the descriptor `decoder_open` attaches -/

/-- C6: whenever `decoder_open` returns `LV_RES_OK`, the descriptor it attaches has `px_offset`
the little-endian uint32 at offset 10 of the 54-byte header array it read, `px_width` the
little-endian int32 at offset 18, `px_height` the little-endian int32 at offset 22 and `bpp` the
little-endian 16-bit field at offset 28 zero-extended (so below `2 ^ 16`); `img_data` is `NULL`
and the only read `decoder_open` issued is the 54-byte header read. For a file of at least 54
bytes the header array is the start of the file, so the fields are those of the file. -/
theorem C6_open_parses_header (alloc_ok : Bool) (header0 : List Nat) (fs : lv_fs)
    (dsc dsc1 : lv_img_decoder_dsc_t) (fs1 : lv_fs)
    (h : decoder_open alloc_ok header0 fs dsc = (LV_RES_OK, dsc1, fs1)) :
    ∃ data b,
      fs.files.lookup (c_str dsc.src.fn) = some data
      ∧ dsc1.user_data = some b
      ∧ b.px_offset = le_u32 (header_after_read data header0) 10
      ∧ b.px_width = le_i32 (header_after_read data header0) 18
      ∧ b.px_height = le_i32 (header_after_read data header0) 22
      ∧ b.bpp = le_u16 (header_after_read data header0) 28
      ∧ b.bpp < 65536
      ∧ dsc1.img_data = none
      ∧ fs1.log = fs.log ++
          [fs_call.open_ (c_str dsc.src.fn) true, fs_call.read fs.next_id 54]
      ∧ (54 ≤ data.length →
          b.px_offset = le_u32 data 10 ∧ b.px_width = le_i32 data 18
          ∧ b.px_height = le_i32 data 22 ∧ b.bpp = le_u16 data 28) := by
  obtain ⟨data, -, -, hlook, -, -, -, heq⟩ :=
    decoder_open_ok_inv alloc_ok header0 fs dsc (by rw [h])
  rw [h] at heq
  have hd : dsc1 = { dsc with
      user_data := some (dsc_of_header fs.next_id (header_after_read data header0)),
      img_data := none } := congrArg (fun r => r.2.1) heq
  have hf : fs1 = fs_after_header_read fs (c_str dsc.src.fn) data :=
    congrArg (fun r => r.2.2) heq
  refine ⟨data, dsc_of_header fs.next_id (header_after_read data header0), hlook,
    by rw [hd], rfl, rfl, rfl, rfl, ?_, by rw [hd], by rw [hf]; rfl, ?_⟩
  · simp only [dsc_of_header, le_u16, byte_at]
    omega
  · intro hlen
    refine ⟨?_, ?_, ?_, ?_⟩
    · exact le_u32_header_after_read data header0 10 (by norm_num) (by omega)
    · simp only [dsc_of_header, le_i32]
      rw [le_u32_header_after_read data header0 18 (by norm_num) (by omega)]
    · simp only [dsc_of_header, le_i32]
      rw [le_u32_header_after_read data header0 22 (by norm_num) (by omega)]
    · exact le_u16_header_after_read data header0 28 (by norm_num) (by omega)

/-- C6 at the 2x2 file `a.bmp`: `decoder_open` succeeds and attaches offset 54, width 2,
height 2 and 24 bpp. -/
theorem C6_open_parses_header_witness :
    decoder_open true (zeros 54) (fs_with file_2x2) dsc_a
      = (LV_RES_OK, dsc_with b_2x2, fs_opened file_2x2)
    ∧ ∃ data b,
      (fs_with file_2x2).files.lookup (c_str dsc_a.src.fn) = some data
      ∧ (dsc_with b_2x2).user_data = some b
      ∧ b.px_offset = le_u32 (header_after_read data (zeros 54)) 10
      ∧ b.px_width = le_i32 (header_after_read data (zeros 54)) 18
      ∧ b.px_height = le_i32 (header_after_read data (zeros 54)) 22
      ∧ b.bpp = le_u16 (header_after_read data (zeros 54)) 28
      ∧ b.bpp < 65536
      ∧ (dsc_with b_2x2).img_data = none
      ∧ (fs_opened file_2x2).log = (fs_with file_2x2).log ++
          [fs_call.open_ (c_str dsc_a.src.fn) true, fs_call.read (fs_with file_2x2).next_id 54]
      ∧ (54 ≤ data.length →
          b.px_offset = le_u32 data 10 ∧ b.px_width = le_i32 data 18
          ∧ b.px_height = le_i32 data 22 ∧ b.bpp = le_u16 data 28) :=
  ⟨rfl, C6_open_parses_header true (zeros 54) (fs_with file_2x2) dsc_a (dsc_with b_2x2)
    (fs_opened file_2x2) rfl⟩

/-! ## C7: the magic-byte gate -/

/-- C7: for every file-path source ending in `bmp` whose file opens, if byte 0 of the header
array is not `0x42` or byte 1 is not `0x4D`, `decoder_open` returns `LV_RES_INV`, leaves the
decoder descriptor as it was (no session attached) and has made exactly one read, of 54 bytes,
on the stream it opened; with bytes `0x42, 0x4D` and a successful allocation it returns
`LV_RES_OK`. For a file of at least two bytes the two header bytes are the first two bytes of
the file. -/
theorem C7_magic_gate (alloc_ok : Bool) (header0 : List Nat) (fs : lv_fs)
    (dsc : lv_img_decoder_dsc_t) (data : List Nat)
    (hfile : dsc.src.src_type = LV_IMG_SRC_FILE) (hext : ends_in_bmp dsc.src.fn)
    (hopen : fs.files.lookup (c_str dsc.src.fn) = some data) :
    ((byte_at (header_after_read data header0) 0 ≠ 66
        ∨ byte_at (header_after_read data header0) 1 ≠ 77) →
      (decoder_open alloc_ok header0 fs dsc).1 = LV_RES_INV
      ∧ (decoder_open alloc_ok header0 fs dsc).2.1.user_data = dsc.user_data
      ∧ (decoder_open alloc_ok header0 fs dsc).2.1.img_data = dsc.img_data
      ∧ (decoder_open alloc_ok header0 fs dsc).2.2.log = fs.log ++
          [fs_call.open_ (c_str dsc.src.fn) true, fs_call.read fs.next_id 54])
    ∧ (byte_at (header_after_read data header0) 0 = 66 →
        byte_at (header_after_read data header0) 1 = 77 → alloc_ok = true →
        (decoder_open alloc_ok header0 fs dsc).1 = LV_RES_OK)
    ∧ (2 ≤ data.length →
        byte_at (header_after_read data header0) 0 = byte_at data 0
        ∧ byte_at (header_after_read data header0) 1 = byte_at data 1) := by
  rw [decoder_open_file alloc_ok header0 fs dsc data hfile (strcmp_ends_in_bmp dsc.src hext)
    hopen]
  refine ⟨?_, ?_, ?_⟩
  · intro hbad
    have hc : 66 ≠ byte_at (header_after_read data header0) 0
        ∨ 77 ≠ byte_at (header_after_read data header0) 1 :=
      hbad.imp (fun h => Ne.symm h) (fun h => Ne.symm h)
    rw [if_pos hc]
    exact ⟨rfl, rfl, rfl, rfl⟩
  · intro h0 h1 ha
    have hc : ¬ (66 ≠ byte_at (header_after_read data header0) 0
        ∨ 77 ≠ byte_at (header_after_read data header0) 1) := by
      rw [h0, h1]; simp
    rw [if_neg hc, ha]
    rfl
  · intro hlen
    exact ⟨byte_at_header_after_read data header0 0 (by norm_num) (by omega),
      byte_at_header_after_read data header0 1 (by norm_num) (by omega)⟩

/-- C7 at `a.bmp` holding a file that starts with `PK` (rejected), and at `a.bmp` holding the
2x2 file that starts with `BM` (accepted). -/
theorem C7_magic_gate_witness :
    (dsc_a.src.src_type = LV_IMG_SRC_FILE ∧ ends_in_bmp dsc_a.src.fn
      ∧ (fs_with file_bad_magic).files.lookup (c_str dsc_a.src.fn) = some file_bad_magic)
    ∧ (((byte_at (header_after_read file_bad_magic (zeros 54)) 0 ≠ 66
        ∨ byte_at (header_after_read file_bad_magic (zeros 54)) 1 ≠ 77) →
      (decoder_open true (zeros 54) (fs_with file_bad_magic) dsc_a).1 = LV_RES_INV
      ∧ (decoder_open true (zeros 54) (fs_with file_bad_magic) dsc_a).2.1.user_data
          = dsc_a.user_data
      ∧ (decoder_open true (zeros 54) (fs_with file_bad_magic) dsc_a).2.1.img_data
          = dsc_a.img_data
      ∧ (decoder_open true (zeros 54) (fs_with file_bad_magic) dsc_a).2.2.log
          = (fs_with file_bad_magic).log ++
            [fs_call.open_ (c_str dsc_a.src.fn) true,
             fs_call.read (fs_with file_bad_magic).next_id 54])
    ∧ (byte_at (header_after_read file_bad_magic (zeros 54)) 0 = 66 →
        byte_at (header_after_read file_bad_magic (zeros 54)) 1 = 77 → true = true →
        (decoder_open true (zeros 54) (fs_with file_bad_magic) dsc_a).1 = LV_RES_OK)
    ∧ (2 ≤ file_bad_magic.length →
        byte_at (header_after_read file_bad_magic (zeros 54)) 0 = byte_at file_bad_magic 0
        ∧ byte_at (header_after_read file_bad_magic (zeros 54)) 1
            = byte_at file_bad_magic 1))
    ∧ (decoder_open true (zeros 54) (fs_with file_bad_magic) dsc_a).1 = LV_RES_INV
    ∧ (decoder_open true (zeros 54) (fs_with file_2x2) dsc_a).1 = LV_RES_OK :=
  ⟨⟨rfl, ⟨[97, 46], rfl⟩, rfl⟩,
   C7_magic_gate true (zeros 54) (fs_with file_bad_magic) dsc_a file_bad_magic rfl
     ⟨[97, 46], rfl⟩ rfl,
   ((C7_magic_gate true (zeros 54) (fs_with file_bad_magic) dsc_a file_bad_magic rfl
     ⟨[97, 46], rfl⟩ rfl).1 (Or.inl (by decide))).1,
   (C7_magic_gate true (zeros 54) (fs_with file_2x2) dsc_a file_2x2 rfl
     ⟨[97, 46], rfl⟩ rfl).2.1 (by decide) (by decide) rfl⟩

/-! ## C8: the stream after a rejected open -/

/-- C8, the code at the failing inputs: `decoder_open` of `a.bmp` holding a file that starts
with `PK` returns `LV_RES_INV` and leaves the stream it opened in the table of open streams,
with no `close` call in the log; the same happens for a well-formed file when the allocation of
the descriptor fails. Before the call no stream was open. -/
theorem C8_rejected_open_leaves_stream_open :
    (fs_with file_bad_magic).opened = []
    ∧ (decoder_open true (zeros 54) (fs_with file_bad_magic) dsc_a).1 = LV_RES_INV
    ∧ (decoder_open true (zeros 54) (fs_with file_bad_magic) dsc_a).2.2.opened
        = [{ id := 0, data := file_bad_magic, pos := 54 }]
    ∧ (decoder_open true (zeros 54) (fs_with file_bad_magic) dsc_a).2.2.log
        = [fs_call.open_ a_bmp true, fs_call.read 0 54]
    ∧ (fs_with file_2x2).opened = []
    ∧ (decoder_open false (zeros 54) (fs_with file_2x2) dsc_a).1 = LV_RES_INV
    ∧ (decoder_open false (zeros 54) (fs_with file_2x2) dsc_a).2.2.opened
        = [{ id := 0, data := file_2x2, pos := 54 }]
    ∧ (decoder_open false (zeros 54) (fs_with file_2x2) dsc_a).2.2.log
        = [fs_call.open_ a_bmp true, fs_call.read 0 54] := by
  decide

/-! ## C9: a short read in `decoder_read_line` -/

/-- C9, as stated, fails: in the session on `file_short` the stream holds two bytes from
offset 60 while logical row 0 requests six; `decoder_read_line` returns `LV_RES_OK` with the
buffer filled only in its first two bytes. -/
theorem C9_counterexample :
    read_line_pos b_2x2 0 0 = 60 ∧ read_line_btr b_2x2 2 = 6
    ∧ file_short.length - 60 = 2
    ∧ (decoder_read_line 16 (fs_opened file_short) (dsc_with b_2x2) 0 0 2
          [9, 9, 9, 9, 9, 9]).map (fun r => (r.1, r.2.1))
        = some (LV_RES_OK, [7, 8, 9, 9, 9, 9]) := by
  decide

/-- C9, amended: for every open session and every request for which the stream holds fewer
bytes from the computed offset than the count requested, `decoder_read_line` returns
`LV_RES_OK`; the bytes the stream does hold are copied to the start of the buffer and the bytes
of the buffer behind them keep their previous contents (no zero fill), after which the channel
loop runs when it applies. -/
theorem C9_short_read_returns_ok (cd : Nat) (fs : lv_fs) (dsc : lv_img_decoder_dsc_t)
    (b : bmp_dsc_t) (s : lv_fs_file_t) (x y len : Int) (buf : List Nat)
    (hb : dsc.user_data = some b) (hs : find_file fs.opened b.f = some s)
    (hshort : s.data.length - read_line_pos b x y < read_line_btr b len) :
    ∃ out fs1,
      decoder_read_line cd fs dsc x y len buf = some (LV_RES_OK, out, fs1)
      ∧ (¬ (cd = 32 ∧ b.bpp = 32) →
          out = s.data.drop (read_line_pos b x y)
                  ++ buf.drop (s.data.length - read_line_pos b x y))
      ∧ (cd = 32 ∧ b.bpp = 32 →
          out = swap_loop (s.data.drop (read_line_pos b x y)
                  ++ buf.drop (s.data.length - read_line_pos b x y)) (as_uint len)) := by
  have htake : (s.data.drop (read_line_pos b x y)).take (read_line_btr b len)
      = s.data.drop (read_line_pos b x y) := by
    apply List.take_of_length_le
    rw [List.length_drop]; omega
  rw [decoder_read_line_eq cd fs dsc b s x y len buf hb hs, htake, List.length_drop]
  refine ⟨_, _, rfl, ?_, ?_⟩
  · intro hno; rw [if_neg hno]
  · intro hyes; rw [if_pos hyes]

/-- C9 (amended) at the session on `file_short`: row 0 requests six bytes where the stream
holds two. -/
theorem C9_short_read_returns_ok_witness :
    ((dsc_with b_2x2).user_data = some b_2x2
      ∧ find_file (fs_opened file_short).opened b_2x2.f
          = some { id := 0, data := file_short, pos := 54 }
      ∧ file_short.length - read_line_pos b_2x2 0 0 < read_line_btr b_2x2 2)
    ∧ ∃ out fs1,
      decoder_read_line 16 (fs_opened file_short) (dsc_with b_2x2) 0 0 2 [9, 9, 9, 9, 9, 9]
        = some (LV_RES_OK, out, fs1)
      ∧ (¬ (16 = 32 ∧ b_2x2.bpp = 32) →
          out = file_short.drop (read_line_pos b_2x2 0 0)
                  ++ [9, 9, 9, 9, 9, 9].drop (file_short.length - read_line_pos b_2x2 0 0))
      ∧ (16 = 32 ∧ b_2x2.bpp = 32 →
          out = swap_loop (file_short.drop (read_line_pos b_2x2 0 0)
                  ++ [9, 9, 9, 9, 9, 9].drop (file_short.length - read_line_pos b_2x2 0 0))
                  (as_uint 2)) :=
  ⟨⟨rfl, rfl, by decide⟩,
   C9_short_read_returns_ok 16 (fs_opened file_short) (dsc_with b_2x2) b_2x2
     { id := 0, data := file_short, pos := 54 } 0 0 2 [9, 9, 9, 9, 9, 9] rfl rfl (by decide)⟩

/-! ## C10: the probe of a file shorter than its header -/

/-- C10, as stated, fails: the probe of `a.bmp` holding four bytes returns `LV_RES_OK`, and the
width and height it reports are decoded from bytes of the local array that the read did not
fill (here the stale bytes `7, 7, 7, 7`, the integer `117901063`). -/
theorem C10_counterexample :
    file_tiny.length < 54
    ∧ decoder_info 16 4 (fun _ => 0) stale54 (fs_with file_tiny) src_a header_init
        = (LV_RES_OK,
           { w := 117901063, h := 117901063, always_zero := 0, cf := LV_IMG_CF_TRUE_COLOR },
           { files := [(a_bmp, file_tiny)], opened := [], next_id := 1,
             log := [fs_call.open_ a_bmp true, fs_call.read 0 54, fs_call.close 0] }) := by
  decide

/-- C10, amended: for every file-path source ending in `bmp` whose file opens but holds fewer
than 54 bytes, `decoder_info` returns `LV_RES_OK`; the width and height it reports are the
little-endian int32 at offsets 18 and 22 of the local header array, whose bytes below the
file's length are the file's and whose bytes from the file's length on are what the array held
before the read. -/
theorem C10_info_short_file_returns_ok (cd hsize : Nat) (hmem : Nat → Nat)
    (headers0 : List Nat) (fs : lv_fs) (src : img_src) (header : lv_img_header_t)
    (data : List Nat)
    (hfile : src.src_type = LV_IMG_SRC_FILE) (hext : ends_in_bmp src.fn)
    (hopen : fs.files.lookup (c_str src.fn) = some data) (hshort : data.length < 54) :
    (decoder_info cd hsize hmem headers0 fs src header).1 = LV_RES_OK
    ∧ (decoder_info cd hsize hmem headers0 fs src header).2.1.w
        = le_i32 (header_after_read data headers0) 18
    ∧ (decoder_info cd hsize hmem headers0 fs src header).2.1.h
        = le_i32 (header_after_read data headers0) 22
    ∧ (∀ i, i < data.length →
        (header_after_read data headers0).getD i 0 = data.getD i 0)
    ∧ (∀ i, data.length ≤ i →
        (header_after_read data headers0).getD i 0 = headers0.getD i 0) := by
  rw [decoder_info_file cd hsize hmem headers0 fs src header data hfile
    (strcmp_ends_in_bmp src hext) hopen]
  have htake : data.take 54 = data := List.take_of_length_le (by omega)
  refine ⟨rfl, rfl, rfl, ?_, ?_⟩
  · intro i hi
    unfold header_after_read
    rw [htake, List.getD_eq_getElem?_getD, List.getD_eq_getElem?_getD,
      List.getElem?_append_left hi]
  · intro i hi
    unfold header_after_read
    rw [htake, List.getD_eq_getElem?_getD, List.getD_eq_getElem?_getD,
      List.getElem?_append_right hi, List.getElem?_drop]
    congr 2
    omega

/-- C10 (amended) at `a.bmp` holding four bytes. -/
theorem C10_info_short_file_returns_ok_witness :
    (src_a.src_type = LV_IMG_SRC_FILE ∧ ends_in_bmp src_a.fn
      ∧ (fs_with file_tiny).files.lookup (c_str src_a.fn) = some file_tiny
      ∧ file_tiny.length < 54)
    ∧ (decoder_info 16 4 (fun _ => 0) stale54 (fs_with file_tiny) src_a header_init).1
        = LV_RES_OK
    ∧ (decoder_info 16 4 (fun _ => 0) stale54 (fs_with file_tiny) src_a header_init).2.1.w
        = le_i32 (header_after_read file_tiny stale54) 18
    ∧ (decoder_info 16 4 (fun _ => 0) stale54 (fs_with file_tiny) src_a header_init).2.1.h
        = le_i32 (header_after_read file_tiny stale54) 22
    ∧ (∀ i, i < file_tiny.length →
        (header_after_read file_tiny stale54).getD i 0 = file_tiny.getD i 0)
    ∧ (∀ i, file_tiny.length ≤ i →
        (header_after_read file_tiny stale54).getD i 0 = stale54.getD i 0) :=
  ⟨⟨rfl, ⟨[97, 46], rfl⟩, rfl, by decide⟩,
   C10_info_short_file_returns_ok 16 4 (fun _ => 0) stale54 (fs_with file_tiny) src_a
     header_init file_tiny rfl ⟨[97, 46], rfl⟩ rfl (by decide)⟩

/-! ## Lemmas on the extension test, converse direction -/

theorem strcmp_chars_eq_zero (a b : List Nat) (ha : ∀ c ∈ a, c ≠ 0) (hb : ∀ c ∈ b, c ≠ 0)
    (h : strcmp_chars a b = 0) : a = b := by
  induction a generalizing b with
  | nil =>
    cases b with
    | nil => rfl
    | cons y ys =>
      exfalso
      have hy := hb y (List.mem_cons_self _ _)
      simp [strcmp_chars] at h
      exact hy h
  | cons x xs ih =>
    cases b with
    | nil =>
      exfalso
      have hx := ha x (List.mem_cons_self _ _)
      simp [strcmp_chars] at h
      exact hx h
    | cons y ys =>
      unfold strcmp_chars at h
      split_ifs at h with hxy
      · rw [hxy, ih ys (fun c hc => ha c (List.mem_cons_of_mem _ hc))
          (fun c hc => hb c (List.mem_cons_of_mem _ hc)) h]
      · exfalso; omega

theorem strcmp_eq_zero (a b : List Nat) (h : strcmp a b = 0) : c_str a = c_str b :=
  strcmp_chars_eq_zero _ _ (c_str_ne_zero a) (c_str_ne_zero b) h

theorem ends_in_bmp_of_strcmp (s : img_src) (hlen : 3 ≤ strlen s.fn)
    (h : strcmp (ext_of s) bmp_ext = 0) : ends_in_bmp s.fn := by
  have h1 := strcmp_eq_zero _ _ h
  unfold ext_of at h1
  rw [if_pos hlen] at h1
  have hne : ∀ c ∈ (c_str s.fn).drop (strlen s.fn - 3), c ≠ 0 :=
    fun c hc => c_str_ne_zero s.fn c (List.mem_of_mem_drop hc)
  rw [c_str_of_ne_zero _ hne] at h1
  have h2 : c_str bmp_ext = bmp_ext := by decide
  rw [h2] at h1
  refine ⟨(c_str s.fn).take (strlen s.fn - 3), ?_⟩
  rw [← h1, List.take_append_drop]

theorem decoder_info_not_file (cd hsize : Nat) (hmem : Nat → Nat) (headers0 : List Nat)
    (fs : lv_fs) (src : img_src) (header : lv_img_header_t)
    (h : src.src_type ≠ LV_IMG_SRC_FILE) :
    decoder_info cd hsize hmem headers0 fs src header = (LV_RES_INV, header, fs) := by
  unfold decoder_info
  rw [if_neg h]
  split_ifs <;> rfl

theorem decoder_info_bad_ext (cd hsize : Nat) (hmem : Nat → Nat) (headers0 : List Nat)
    (fs : lv_fs) (src : img_src) (header : lv_img_header_t)
    (hfile : src.src_type = LV_IMG_SRC_FILE) (h : strcmp (ext_of src) bmp_ext ≠ 0) :
    decoder_info cd hsize hmem headers0 fs src header = (LV_RES_INV, header, fs) := by
  unfold decoder_info
  rw [if_pos hfile, if_neg h]

theorem decoder_info_no_file (cd hsize : Nat) (hmem : Nat → Nat) (headers0 : List Nat)
    (fs : lv_fs) (src : img_src) (header : lv_img_header_t)
    (hfile : src.src_type = LV_IMG_SRC_FILE) (hext : strcmp (ext_of src) bmp_ext = 0)
    (hopen : fs.files.lookup (c_str src.fn) = none) :
    decoder_info cd hsize hmem headers0 fs src header
      = (LV_RES_INV, header,
         { fs with log := fs.log ++ [fs_call.open_ (c_str src.fn) false] }) := by
  unfold decoder_info
  rw [if_pos hfile, if_pos hext]
  simp [lv_fs_open, hopen]

theorem decoder_open_not_file (alloc_ok : Bool) (header0 : List Nat) (fs : lv_fs)
    (dsc : lv_img_decoder_dsc_t) (h : dsc.src.src_type ≠ LV_IMG_SRC_FILE) :
    decoder_open alloc_ok header0 fs dsc = (LV_RES_INV, dsc, fs) := by
  unfold decoder_open
  rw [if_neg h]
  split_ifs <;> rfl

theorem decoder_open_bad_ext (alloc_ok : Bool) (header0 : List Nat) (fs : lv_fs)
    (dsc : lv_img_decoder_dsc_t) (hfile : dsc.src.src_type = LV_IMG_SRC_FILE)
    (h : strcmp (ext_of dsc.src) bmp_ext ≠ 0) :
    decoder_open alloc_ok header0 fs dsc = (LV_RES_INV, dsc, fs) := by
  unfold decoder_open
  rw [if_pos hfile, if_pos h]

theorem decoder_open_no_file (alloc_ok : Bool) (header0 : List Nat) (fs : lv_fs)
    (dsc : lv_img_decoder_dsc_t) (hfile : dsc.src.src_type = LV_IMG_SRC_FILE)
    (hext : strcmp (ext_of dsc.src) bmp_ext = 0)
    (hopen : fs.files.lookup (c_str dsc.src.fn) = none) :
    decoder_open alloc_ok header0 fs dsc
      = (LV_RES_INV, dsc,
         { fs with log := fs.log ++ [fs_call.open_ (c_str dsc.src.fn) false] }) := by
  unfold decoder_open
  rw [if_pos hfile, if_neg (not_not.mpr hext)]
  simp [lv_fs_open, hopen]

/-! ## C11: the extension gate -/

/-- C11: for every source that is not a file path, and for every file-path source of at least
three characters that does not end in `bmp`, both `decoder_info` and `decoder_open` return
`LV_RES_INV` and leave the file system untouched (no call is logged, so no stream is opened),
with the header, respectively the decoder descriptor, as it was. For a file path ending in
`bmp` the first call either of them makes is `lv_fs_open` of that path. -/
theorem C11_extension_gate (cd hsize : Nat) (hmem : Nat → Nat) (headers0 header0 : List Nat)
    (alloc_ok : Bool) (fs : lv_fs) (dsc : lv_img_decoder_dsc_t) (header : lv_img_header_t) :
    (dsc.src.src_type ≠ LV_IMG_SRC_FILE →
      decoder_info cd hsize hmem headers0 fs dsc.src header = (LV_RES_INV, header, fs)
      ∧ decoder_open alloc_ok header0 fs dsc = (LV_RES_INV, dsc, fs))
    ∧ (dsc.src.src_type = LV_IMG_SRC_FILE → 3 ≤ strlen dsc.src.fn →
        ¬ ends_in_bmp dsc.src.fn →
      decoder_info cd hsize hmem headers0 fs dsc.src header = (LV_RES_INV, header, fs)
      ∧ decoder_open alloc_ok header0 fs dsc = (LV_RES_INV, dsc, fs))
    ∧ (dsc.src.src_type = LV_IMG_SRC_FILE → ends_in_bmp dsc.src.fn →
      ∃ rest1 rest2,
        (decoder_info cd hsize hmem headers0 fs dsc.src header).2.2.log
          = fs.log ++ fs_call.open_ (c_str dsc.src.fn)
              (fs.files.lookup (c_str dsc.src.fn)).isSome :: rest1
        ∧ (decoder_open alloc_ok header0 fs dsc).2.2.log
          = fs.log ++ fs_call.open_ (c_str dsc.src.fn)
              (fs.files.lookup (c_str dsc.src.fn)).isSome :: rest2) := by
  refine ⟨?_, ?_, ?_⟩
  · intro h
    exact ⟨decoder_info_not_file cd hsize hmem headers0 fs dsc.src header h,
      decoder_open_not_file alloc_ok header0 fs dsc h⟩
  · intro hfile hlen hno
    have hne : strcmp (ext_of dsc.src) bmp_ext ≠ 0 :=
      fun h0 => hno (ends_in_bmp_of_strcmp dsc.src hlen h0)
    exact ⟨decoder_info_bad_ext cd hsize hmem headers0 fs dsc.src header hfile hne,
      decoder_open_bad_ext alloc_ok header0 fs dsc hfile hne⟩
  · intro hfile hext
    have h0 := strcmp_ends_in_bmp dsc.src hext
    cases hlook : fs.files.lookup (c_str dsc.src.fn) with
    | none =>
      rw [decoder_info_no_file cd hsize hmem headers0 fs dsc.src header hfile h0 hlook,
        decoder_open_no_file alloc_ok header0 fs dsc hfile h0 hlook]
      exact ⟨[], [], rfl, rfl⟩
    | some data =>
      rw [decoder_info_file cd hsize hmem headers0 fs dsc.src header data hfile h0 hlook,
        decoder_open_file alloc_ok header0 fs dsc data hfile h0 hlook]
      refine ⟨[fs_call.read fs.next_id 54, fs_call.close fs.next_id],
        [fs_call.read fs.next_id 54], ?_, ?_⟩
      · simp [lv_fs_close, fs_after_header_read]
      · split_ifs <;> simp [fs_after_header_read]

/-- C11 at three sources: an in-memory source and the file path `x.png` are rejected without a
call to the file system, the file path `a.bmp` is opened by the probe and by open. -/
theorem C11_extension_gate_witness :
    (dsc_var.src.src_type ≠ LV_IMG_SRC_FILE
      ∧ dsc_png.src.src_type = LV_IMG_SRC_FILE ∧ 3 ≤ strlen dsc_png.src.fn
      ∧ ¬ ends_in_bmp dsc_png.src.fn
      ∧ dsc_a.src.src_type = LV_IMG_SRC_FILE ∧ ends_in_bmp dsc_a.src.fn)
    ∧ (decoder_info 16 4 (fun _ => 0) (zeros 54) (fs_with file_2x2) dsc_var.src header_init
          = (LV_RES_INV, header_init, fs_with file_2x2)
        ∧ decoder_open true (zeros 54) (fs_with file_2x2) dsc_var
          = (LV_RES_INV, dsc_var, fs_with file_2x2))
    ∧ (decoder_info 16 4 (fun _ => 0) (zeros 54) (fs_with file_2x2) dsc_png.src header_init
          = (LV_RES_INV, header_init, fs_with file_2x2)
        ∧ decoder_open true (zeros 54) (fs_with file_2x2) dsc_png
          = (LV_RES_INV, dsc_png, fs_with file_2x2))
    ∧ (∃ rest1 rest2,
        (decoder_info 16 4 (fun _ => 0) (zeros 54) (fs_with file_2x2) dsc_a.src
            header_init).2.2.log
          = (fs_with file_2x2).log ++ fs_call.open_ (c_str dsc_a.src.fn)
              ((fs_with file_2x2).files.lookup (c_str dsc_a.src.fn)).isSome :: rest1
        ∧ (decoder_open true (zeros 54) (fs_with file_2x2) dsc_a).2.2.log
          = (fs_with file_2x2).log ++ fs_call.open_ (c_str dsc_a.src.fn)
              ((fs_with file_2x2).files.lookup (c_str dsc_a.src.fn)).isSome :: rest2) :=
  have hpng : ¬ ends_in_bmp dsc_png.src.fn := by
    rintro ⟨stem, hstem⟩
    have h1 : (c_str dsc_png.src.fn).drop 2 = (stem ++ bmp_ext).drop 2 := by rw [hstem]
    have hl : (c_str dsc_png.src.fn).length = (stem ++ bmp_ext).length := by rw [hstem]
    have hs : stem.length = 2 := by
      have h5 : (c_str dsc_png.src.fn).length = 5 := by decide
      rw [h5, List.length_append] at hl
      have h3 : bmp_ext.length = 3 := by decide
      omega
    rw [List.drop_left' hs] at h1
    revert h1
    decide
  ⟨⟨by decide, rfl, by decide, hpng, rfl, ⟨[97, 46], rfl⟩⟩,
   (C11_extension_gate 16 4 (fun _ => 0) (zeros 54) (zeros 54) true (fs_with file_2x2) dsc_var
     header_init).1 (by decide),
   (C11_extension_gate 16 4 (fun _ => 0) (zeros 54) (zeros 54) true (fs_with file_2x2) dsc_png
     header_init).2.1 rfl (by decide) hpng,
   (C11_extension_gate 16 4 (fun _ => 0) (zeros 54) (zeros 54) true (fs_with file_2x2) dsc_a
     header_init).2.2 rfl ⟨[97, 46], rfl⟩⟩

/-! ## C12: paths shorter than the extension -/

/-- C12, the code at the failing input: for the two-character file path `mp` the start index
`strlen(fn) - 3` is `-1`, in front of the path string; the comparison then reads the byte that
precedes the path in memory, and when that byte is `b` the extension test passes: the probe and
open both go on to open the file and return `LV_RES_OK` instead of `LV_RES_INV`. -/
theorem C12_short_path_reads_before_string :
    src_mp.src_type = LV_IMG_SRC_FILE
    ∧ strlen src_mp.fn = 2
    ∧ ext_index src_mp.fn = -1
    ∧ ext_of src_mp = bmp_ext
    ∧ (decoder_info 16 4 (fun _ => 0) (zeros 54) fs_mp src_mp header_init).1 = LV_RES_OK
    ∧ (decoder_info 16 4 (fun _ => 0) (zeros 54) fs_mp src_mp header_init).2.2.log
        = [fs_call.open_ [109, 112] true, fs_call.read 0 54, fs_call.close 0]
    ∧ (decoder_open true (zeros 54) fs_mp dsc_mp).1 = LV_RES_OK
    ∧ (decoder_open true (zeros 54) fs_mp dsc_mp).2.2.log
        = [fs_call.open_ [109, 112] true, fs_call.read 0 54] := by
  decide

/-! ## Lemmas on sessions opened on `a.bmp` -/

theorem header_after_read_prefix (hdr rest : List Nat) (hlen : hdr.length = 54) :
    header_after_read (hdr ++ rest) (zeros 54) = hdr := by
  unfold header_after_read
  have ht : (hdr ++ rest).take 54 = hdr := by
    rw [← hlen]; exact List.take_left _ _
  rw [ht, hlen]
  have hz : (zeros 54).drop 54 = [] := by decide
  rw [hz, List.append_nil]

theorem decoder_open_a_bmp (hdr rest : List Nat) (hlen : hdr.length = 54)
    (h0 : byte_at hdr 0 = 66) (h1 : byte_at hdr 1 = 77) :
    (decoder_open true (zeros 54) (fs_with (hdr ++ rest)) dsc_a).1 = LV_RES_OK
    ∧ (decoder_open true (zeros 54) (fs_with (hdr ++ rest)) dsc_a).2.1.user_data
        = some (dsc_of_header 0 hdr) := by
  have hfile : dsc_a.src.src_type = LV_IMG_SRC_FILE := rfl
  have hext : strcmp (ext_of dsc_a.src) bmp_ext = 0 := by decide
  have hlook : (fs_with (hdr ++ rest)).files.lookup (c_str dsc_a.src.fn)
      = some (hdr ++ rest) := by
    have hp : c_str dsc_a.src.fn = a_bmp := by decide
    rw [hp]
    simp [fs_with, List.lookup]
  rw [decoder_open_file true (zeros 54) (fs_with (hdr ++ rest)) dsc_a (hdr ++ rest) hfile hext
    hlook, header_after_read_prefix hdr rest hlen]
  have hc : ¬ (66 ≠ byte_at hdr 0 ∨ 77 ≠ byte_at hdr 1) := by
    rw [h0, h1]; simp
  rw [if_neg hc]
  exact ⟨rfl, rfl⟩

/-! ## C13: reading every row of a well-formed file -/

/-- C13, as stated, fails: `file_wide` has magic `BM`, width `2 ^ 27`, height 1, 32 bpp and
holds the `H * W * bpp / 8 = 2 ^ 29` bytes of pixel data behind its offset 54; `decoder_open`
succeeds, but the descriptor's `row_size_bytes` is 0, not `W * bpp / 8 = 536870912`: the product
`bpp * W = 2 ^ 32` does not fit the 32-bit multiplication. -/
theorem C13_counterexample :
    byte_at file_wide 0 = 66 ∧ byte_at file_wide 1 = 77
    ∧ le_i32 file_wide 18 = 134217728 ∧ le_i32 file_wide 22 = 1 ∧ le_u16 file_wide 28 = 32
    ∧ le_u32 file_wide 10 + 1 * 134217728 * 32 / 8 ≤ file_wide.length
    ∧ (decoder_open true (zeros 54) (fs_with file_wide) dsc_a).1 = LV_RES_OK
    ∧ (decoder_open true (zeros 54) (fs_with file_wide) dsc_a).2.1.user_data = some b_wide
    ∧ b_wide.row_size_bytes = 0
    ∧ (b_wide.px_width * (b_wide.bpp : Int) / 8 = 536870912) := by
  have hfield : ∀ rest : List Nat,
      byte_at (mk_header 66 77 54 134217728 1 32 ++ rest) 0 = 66
      ∧ byte_at (mk_header 66 77 54 134217728 1 32 ++ rest) 1 = 77
      ∧ le_i32 (mk_header 66 77 54 134217728 1 32 ++ rest) 18 = 134217728
      ∧ le_i32 (mk_header 66 77 54 134217728 1 32 ++ rest) 22 = 1
      ∧ le_u16 (mk_header 66 77 54 134217728 1 32 ++ rest) 28 = 32
      ∧ le_u32 (mk_header 66 77 54 134217728 1 32 ++ rest) 10 = 54 := by
    intro rest
    have hb : ∀ i, i < 54 → byte_at (mk_header 66 77 54 134217728 1 32 ++ rest) i
        = byte_at (mk_header 66 77 54 134217728 1 32) i := by
      intro i hi
      unfold byte_at
      rw [List.getD_eq_getElem?_getD, List.getD_eq_getElem?_getD,
        List.getElem?_append_left (by
          have : (mk_header 66 77 54 134217728 1 32).length = 54 := by decide
          omega)]
    refine ⟨?_, ?_, ?_, ?_, ?_, ?_⟩
    · rw [hb 0 (by norm_num)]; decide
    · rw [hb 1 (by norm_num)]; decide
    · unfold le_i32 le_u32
      rw [hb 18 (by norm_num), hb 19 (by norm_num), hb 20 (by norm_num), hb 21 (by norm_num)]
      decide
    · unfold le_i32 le_u32
      rw [hb 22 (by norm_num), hb 23 (by norm_num), hb 24 (by norm_num), hb 25 (by norm_num)]
      decide
    · unfold le_u16
      rw [hb 28 (by norm_num), hb 29 (by norm_num)]
      decide
    · unfold le_u32
      rw [hb 10 (by norm_num), hb 11 (by norm_num), hb 12 (by norm_num), hb 13 (by norm_num)]
      decide
  have hlen : file_wide.length = 54 + 536870912 := by
    unfold file_wide
    rw [List.length_append, List.length_replicate]
    have : (mk_header 66 77 54 134217728 1 32).length = 54 := by decide
    rw [this]
  have hopen := decoder_open_a_bmp (mk_header 66 77 54 134217728 1 32)
    (List.replicate 536870912 0) (by decide) (by decide) (by decide)
  have hd : dsc_of_header 0 (mk_header 66 77 54 134217728 1 32) = b_wide := by decide
  rw [hd] at hopen
  obtain ⟨f0, f1, f18, f22, f28, f10⟩ := hfield (List.replicate 536870912 0)
  refine ⟨f0, f1, f18, f22, f28, ?_, hopen.1, hopen.2, rfl, by decide⟩
  have h10 : le_u32 file_wide 10 = 54 := f10
  rw [h10, hlen]

/-! ## Lemmas on the stride and on requests that fit a row -/

theorem dsc_of_header_stride (f : Nat) (hdr : List Nat) (w q : Nat)
    (hw : le_i32 hdr 18 = (w : Int)) (hq : le_u16 hdr 28 = 8 * q)
    (hfit : 8 * (q * w) < 4294967296) :
    (dsc_of_header f hdr).row_size_bytes = ((q * w : Nat) : Int)
    ∧ (dsc_of_header f hdr).bpp / 8 = q := by
  have hwlt : (w : Int) < 2147483648 := by rw [← hw]; exact as_int_lt _
  refine ⟨?_, ?_⟩
  · simp only [dsc_of_header]
    rw [hw, hq, as_uint_of_nonneg _ (by omega) (by omega), Int.toNat_natCast,
      Nat.mul_assoc, Nat.mod_eq_of_lt hfit, Nat.mul_div_cancel_left _ (by norm_num)]
    exact as_int_of_lt _ (by omega)
  · simp only [dsc_of_header]
    rw [hq]
    omega

theorem read_line_btr_of_nonneg (b : bmp_dsc_t) (len : Int) (n q : Nat)
    (hlen : len = (n : Int)) (hq : b.bpp / 8 = q) (hfit : n * q < 4294967296) :
    read_line_btr b len = n * q := by
  rcases Nat.eq_zero_or_pos q with h0 | hpos
  · unfold read_line_btr
    rw [hq, h0]
    simp
  · have hn : (n : Int) < 4294967296 := by
      have : n ≤ n * q := Nat.le_mul_of_pos_right n hpos
      omega
    unfold read_line_btr
    rw [hlen, as_uint_of_nonneg _ (by omega) hn, Int.toNat_natCast, hq, Nat.mod_eq_of_lt hfit]

theorem read_line_pos_nat (b : bmp_dsc_t) (x y : Int) (r k a q : Nat)
    (hr : b.row_size_bytes = (r : Int)) (hk : b.px_height - 1 - y = (k : Int))
    (hx : x = (a : Int)) (hq : b.bpp / 8 = q) :
    read_line_pos b x y = (b.px_offset + r * k + a * q) % 4294967296 := by
  rw [read_line_pos_eq, hr, hk, hx, hq]
  have : (b.px_offset : Int) + (r : Int) * (k : Int) + (a : Int) * (q : Int)
      = ((b.px_offset + r * k + a * q : Nat) : Int) := by push_cast; ring
  rw [this]
  have h2 : ((b.px_offset + r * k + a * q : Nat) : Int) % 4294967296
      = (((b.px_offset + r * k + a * q) % 4294967296 : Nat) : Int) := by
    push_cast; rfl
  rw [h2, Int.toNat_natCast]

theorem find_file_set_pos_twice (l : List lv_fs_file_t) (f p1 p2 : Nat) (s : lv_fs_file_t)
    (h : find_file l f = some s) :
    find_file (set_pos (set_pos l f p1) f p2) f = some { s with pos := p2 } := by
  have h1 := find_file_set_pos l f p1 s h
  have h2 := find_file_set_pos _ f p2 _ h1
  rw [h2]

/-! ## C13, amended -/

/-- C13, amended: for every file of at least 30 bytes with magic `BM`, width `W > 0`, height
`H > 0`, `bpp` in `{24, 32}` with `bpp * W < 2 ^ 32`, and at least `H * W * bpp / 8` bytes
behind its pixel-data offset, `decoder_open` of a path ending in `bmp` that holds the file
succeeds when the allocation does, with `row_size_bytes = W * bpp / 8` and the stream open on
the file; and in every later state in which the stream is open on the file, for every row
`0 ≤ y < H`, `decoder_read_line(x = 0, y, len = W)` returns `LV_RES_OK`, the stream delivering
exactly `W * bpp / 8` bytes, which equals `row_size_bytes`, and staying open on the file. -/
theorem C13_reads_every_row (header0 : List Nat) (fs : lv_fs) (dsc : lv_img_decoder_dsc_t)
    (data : List Nat)
    (hfile : dsc.src.src_type = LV_IMG_SRC_FILE) (hext : ends_in_bmp dsc.src.fn)
    (hlook : fs.files.lookup (c_str dsc.src.fn) = some data)
    (hlen : 30 ≤ data.length)
    (hm0 : byte_at data 0 = 66) (hm1 : byte_at data 1 = 77)
    (hW : 0 < le_i32 data 18) (hH : 0 < le_i32 data 22)
    (hbpp : le_u16 data 28 = 24 ∨ le_u16 data 28 = 32)
    (hpix : (le_u32 data 10 : Int) + le_i32 data 22 * le_i32 data 18 * (le_u16 data 28 : Int) / 8
      ≤ (data.length : Int))
    (hfit : (le_u16 data 28 : Int) * le_i32 data 18 < 4294967296) :
    ∃ b,
      decoder_open true header0 fs dsc
        = (LV_RES_OK, { dsc with user_data := some b, img_data := none },
           fs_after_header_read fs (c_str dsc.src.fn) data)
      ∧ b.px_width = le_i32 data 18 ∧ b.px_height = le_i32 data 22
      ∧ b.row_size_bytes = le_i32 data 18 * (le_u16 data 28 : Int) / 8
      ∧ (∃ s0, find_file (fs_after_header_read fs (c_str dsc.src.fn) data).opened b.f = some s0
          ∧ s0.data = data)
      ∧ ∀ (cd : Nat) (fsx : lv_fs) (s : lv_fs_file_t) (y : Int) (buf : List Nat),
          find_file fsx.opened b.f = some s → s.data = data → 0 ≤ y → y < le_i32 data 22 →
          ∃ out fs2 s2,
            decoder_read_line cd fsx { dsc with user_data := some b, img_data := none }
                0 y (le_i32 data 18) buf = some (LV_RES_OK, out, fs2)
            ∧ (((s.data.drop (read_line_pos b 0 y)).take
                  (read_line_btr b (le_i32 data 18))).length : Int)
                = le_i32 data 18 * (le_u16 data 28 : Int) / 8
            ∧ (read_line_btr b (le_i32 data 18) : Int) = b.row_size_bytes
            ∧ find_file fs2.opened b.f = some s2 ∧ s2.data = data
            ∧ s2.pos = read_line_pos b 0 y + (le_i32 data 18 * (le_u16 data 28 : Int) / 8).toNat
            := by
  -- the header array agrees with the file on the parsed fields
  have h10 := le_u32_header_after_read data header0 10 (by norm_num) (by omega)
  have h18 : le_i32 (header_after_read data header0) 18 = le_i32 data 18 := by
    unfold le_i32; rw [le_u32_header_after_read data header0 18 (by norm_num) (by omega)]
  have h22 : le_i32 (header_after_read data header0) 22 = le_i32 data 22 := by
    unfold le_i32; rw [le_u32_header_after_read data header0 22 (by norm_num) (by omega)]
  have h28 := le_u16_header_after_read data header0 28 (by norm_num) (by omega)
  have hb0 := byte_at_header_after_read data header0 0 (by norm_num) (by omega)
  have hb1 := byte_at_header_after_read data header0 1 (by norm_num) (by omega)
  -- naturals for width, height and bytes per pixel
  obtain ⟨w, hw⟩ : ∃ w : Nat, le_i32 data 18 = (w : Int) := ⟨(le_i32 data 18).toNat, by omega⟩
  obtain ⟨h, hh⟩ : ∃ h : Nat, le_i32 data 22 = (h : Int) := ⟨(le_i32 data 22).toNat, by omega⟩
  obtain ⟨q, hq⟩ : ∃ q : Nat, le_u16 data 28 = 8 * q := by
    rcases hbpp with h24 | h32
    · exact ⟨3, by rw [h24]⟩
    · exact ⟨4, by rw [h32]⟩
  have hqw : 8 * (q * w) < 4294967296 := by
    have : ((8 * q * w : Nat) : Int) < 4294967296 := by
      push_cast; rw [hq, hw] at hfit; push_cast at hfit; linarith
    have h2 : 8 * q * w < 4294967296 := by exact_mod_cast this
    rw [Nat.mul_assoc] at h2; exact h2
  have hwq : le_i32 data 18 * (le_u16 data 28 : Int) / 8 = ((q * w : Nat) : Int) := by
    rw [hw, hq]
    have : (w : Int) * ((8 * q : Nat) : Int) = 8 * ((q * w : Nat) : Int) := by
      push_cast; ring
    rw [this, Int.mul_ediv_cancel_left _ (by norm_num)]
  have hstride := dsc_of_header_stride fs.next_id (header_after_read data header0) w q
    (by rw [h18, hw]) (by rw [h28, hq]) hqw
  have hpix2 : le_u32 data 10 + (q * w) * h ≤ data.length := by
    have e : le_i32 data 22 * le_i32 data 18 * (le_u16 data 28 : Int) / 8
        = (((q * w) * h : Nat) : Int) := by
      rw [hw, hh, hq]
      have : (h : Int) * (w : Int) * ((8 * q : Nat) : Int) = 8 * (((q * w) * h : Nat) : Int) := by
        push_cast; ring
      rw [this, Int.mul_ediv_cancel_left _ (by norm_num)]
    rw [e] at hpix
    exact_mod_cast hpix
  -- open succeeds
  have hopen := decoder_open_file true header0 fs dsc data hfile (strcmp_ends_in_bmp dsc.src hext)
    hlook
  have hc : ¬ (66 ≠ byte_at (header_after_read data header0) 0
      ∨ 77 ≠ byte_at (header_after_read data header0) 1) := by
    rw [hb0, hb1, hm0, hm1]; simp
  rw [if_neg hc] at hopen
  refine ⟨dsc_of_header fs.next_id (header_after_read data header0), ?_, h18, h22, ?_, ?_, ?_⟩
  · rw [hopen]; rfl
  · rw [hstride.1, hwq]
  · refine ⟨{ id := fs.next_id, data := data, pos := 0 + (data.take 54).length }, ?_, rfl⟩
    simp [fs_after_header_read, find_file, dsc_of_header]
  · intro cd fsx s y buf hs hsd hy0 hy
    obtain ⟨j, hj⟩ : ∃ j : Nat, y = (j : Int) := ⟨y.toNat, by omega⟩
    have hjh : j < h := by rw [hj, hh] at hy; exact_mod_cast hy
    have hk : (dsc_of_header fs.next_id (header_after_read data header0)).px_height - 1 - y
        = ((h - 1 - j : Nat) : Int) := by
      have : (dsc_of_header fs.next_id (header_after_read data header0)).px_height
          = le_i32 (header_after_read data header0) 22 := rfl
      rw [this, h22, hh, hj]; omega
    have hpos := read_line_pos_nat
      (dsc_of_header fs.next_id (header_after_read data header0)) 0 y (q * w) (h - 1 - j) 0 q
      hstride.1 hk (by norm_num) hstride.2
    have hbtr := read_line_btr_of_nonneg
      (dsc_of_header fs.next_id (header_after_read data header0)) (le_i32 data 18) w q hw
      hstride.2 (by rw [Nat.mul_comm]; omega)
    have hoff : (dsc_of_header fs.next_id (header_after_read data header0)).px_offset
        = le_u32 data 10 := h10
    -- the row lies inside the file
    have hrow : (q * w) * (h - 1 - j) + q * w ≤ (q * w) * h := by
      have : (q * w) * (h - 1 - j) + q * w = (q * w) * (h - 1 - j + 1) := by ring
      rw [this]
      exact Nat.mul_le_mul_left _ (by omega)
    have hple : read_line_pos (dsc_of_header fs.next_id (header_after_read data header0)) 0 y
        ≤ le_u32 data 10 + (q * w) * (h - 1 - j) := by
      rw [hpos, hoff, Nat.zero_mul, Nat.add_zero]
      exact Nat.mod_le _ _
    have hchunk : ((s.data.drop
        (read_line_pos (dsc_of_header fs.next_id (header_after_read data header0)) 0 y)).take
        (read_line_btr (dsc_of_header fs.next_id (header_after_read data header0))
          (le_i32 data 18))).length = w * q := by
      rw [List.length_take, List.length_drop, hbtr, hsd]
      have : w * q = q * w := Nat.mul_comm _ _
      omega
    rw [decoder_read_line_eq cd fsx _
      (dsc_of_header fs.next_id (header_after_read data header0)) s 0 y (le_i32 data 18) buf
      rfl hs]
    refine ⟨_, _, _, rfl, ?_, ?_, find_file_set_pos_twice _ _ _ _ s hs, hsd, ?_⟩
    · rw [hchunk, hwq]; push_cast; ring
    · rw [hbtr, hstride.1]; push_cast; ring
    · simp only []
      rw [hchunk, hwq, Int.toNat_natCast, Nat.mul_comm q w]

/-- C13 (amended) at the 2x2, 24-bpp file `a.bmp`. -/
theorem C13_reads_every_row_witness :
    (dsc_a.src.src_type = LV_IMG_SRC_FILE ∧ ends_in_bmp dsc_a.src.fn
      ∧ (fs_with file_2x2).files.lookup (c_str dsc_a.src.fn) = some file_2x2
      ∧ 30 ≤ file_2x2.length
      ∧ byte_at file_2x2 0 = 66 ∧ byte_at file_2x2 1 = 77
      ∧ 0 < le_i32 file_2x2 18 ∧ 0 < le_i32 file_2x2 22
      ∧ (le_u16 file_2x2 28 = 24 ∨ le_u16 file_2x2 28 = 32)
      ∧ (le_u32 file_2x2 10 : Int)
          + le_i32 file_2x2 22 * le_i32 file_2x2 18 * (le_u16 file_2x2 28 : Int) / 8
          ≤ (file_2x2.length : Int)
      ∧ (le_u16 file_2x2 28 : Int) * le_i32 file_2x2 18 < 4294967296)
    ∧ ∃ b,
      decoder_open true (zeros 54) (fs_with file_2x2) dsc_a
        = (LV_RES_OK, { dsc_a with user_data := some b, img_data := none },
           fs_after_header_read (fs_with file_2x2) (c_str dsc_a.src.fn) file_2x2)
      ∧ b.px_width = le_i32 file_2x2 18 ∧ b.px_height = le_i32 file_2x2 22
      ∧ b.row_size_bytes = le_i32 file_2x2 18 * (le_u16 file_2x2 28 : Int) / 8
      ∧ (∃ s0,
          find_file (fs_after_header_read (fs_with file_2x2) (c_str dsc_a.src.fn)
            file_2x2).opened b.f = some s0
          ∧ s0.data = file_2x2)
      ∧ ∀ (cd : Nat) (fsx : lv_fs) (s : lv_fs_file_t) (y : Int) (buf : List Nat),
          find_file fsx.opened b.f = some s → s.data = file_2x2 → 0 ≤ y →
          y < le_i32 file_2x2 22 →
          ∃ out fs2 s2,
            decoder_read_line cd fsx { dsc_a with user_data := some b, img_data := none }
                0 y (le_i32 file_2x2 18) buf = some (LV_RES_OK, out, fs2)
            ∧ (((s.data.drop (read_line_pos b 0 y)).take
                  (read_line_btr b (le_i32 file_2x2 18))).length : Int)
                = le_i32 file_2x2 18 * (le_u16 file_2x2 28 : Int) / 8
            ∧ (read_line_btr b (le_i32 file_2x2 18) : Int) = b.row_size_bytes
            ∧ find_file fs2.opened b.f = some s2 ∧ s2.data = file_2x2
            ∧ s2.pos = read_line_pos b 0 y
                + (le_i32 file_2x2 18 * (le_u16 file_2x2 28 : Int) / 8).toNat :=
  ⟨⟨rfl, ⟨[97, 46], rfl⟩, rfl, by decide, by decide, by decide, by decide, by decide,
    Or.inl (by decide), by decide, by decide⟩,
   C13_reads_every_row (zeros 54) (fs_with file_2x2) dsc_a file_2x2 rfl ⟨[97, 46], rfl⟩ rfl
     (by decide) (by decide) (by decide) (by decide) (by decide) (Or.inl (by decide))
     (by decide) (by decide)⟩

/-! ## C14: pass-through without the channel loop -/

/-- C14: whenever the session's `bpp` is not 32, or `LV_COLOR_DEPTH` is not 32,
`decoder_read_line` returns `LV_RES_OK` and its buffer is the fetched buffer unchanged: the
span read from the stream, byte for byte, at the start and the previous contents of the buffer
behind it; a buffer no longer than the span is exactly the span. -/
theorem C14_pass_through (cd : Nat) (fs : lv_fs) (dsc : lv_img_decoder_dsc_t) (b : bmp_dsc_t)
    (s : lv_fs_file_t) (x y len : Int) (buf : List Nat)
    (hb : dsc.user_data = some b) (hs : find_file fs.opened b.f = some s)
    (hno : b.bpp ≠ 32 ∨ cd ≠ 32) :
    ∃ out fs1,
      decoder_read_line cd fs dsc x y len buf = some (LV_RES_OK, out, fs1)
      ∧ out = (s.data.drop (read_line_pos b x y)).take (read_line_btr b len)
                ++ buf.drop ((s.data.drop (read_line_pos b x y)).take
                      (read_line_btr b len)).length
      ∧ out.take ((s.data.drop (read_line_pos b x y)).take (read_line_btr b len)).length
          = (s.data.drop (read_line_pos b x y)).take (read_line_btr b len)
      ∧ (buf.length ≤ ((s.data.drop (read_line_pos b x y)).take (read_line_btr b len)).length →
          out = (s.data.drop (read_line_pos b x y)).take (read_line_btr b len)) := by
  have hc : ¬ (cd = 32 ∧ b.bpp = 32) := by
    rintro ⟨h1, h2⟩
    rcases hno with h | h
    · exact h h2
    · exact h h1
  rw [decoder_read_line_eq cd fs dsc b s x y len buf hb hs, if_neg hc]
  refine ⟨_, _, rfl, rfl, ?_, ?_⟩
  · exact List.take_left _ _
  · intro hle
    rw [List.drop_of_length_le hle, List.append_nil]

/-- C14 at the 1x1, 32-bpp file on a target without alpha (`LV_COLOR_DEPTH == 16`): the pixel
stored as `[0x10, 0x20, 0x30, 0x40]` is returned as it is. -/
theorem C14_pass_through_witness :
    ((dsc_with b_px32).user_data = some b_px32
      ∧ find_file (fs_opened file_px32).opened b_px32.f
          = some { id := 0, data := file_px32, pos := 54 }
      ∧ (b_px32.bpp ≠ 32 ∨ 16 ≠ 32))
    ∧ (∃ out fs1,
      decoder_read_line 16 (fs_opened file_px32) (dsc_with b_px32) 0 0 1 (zeros 4)
        = some (LV_RES_OK, out, fs1)
      ∧ out = (file_px32.drop (read_line_pos b_px32 0 0)).take (read_line_btr b_px32 1)
                ++ (zeros 4).drop ((file_px32.drop (read_line_pos b_px32 0 0)).take
                      (read_line_btr b_px32 1)).length
      ∧ out.take ((file_px32.drop (read_line_pos b_px32 0 0)).take
            (read_line_btr b_px32 1)).length
          = (file_px32.drop (read_line_pos b_px32 0 0)).take (read_line_btr b_px32 1)
      ∧ ((zeros 4).length
            ≤ ((file_px32.drop (read_line_pos b_px32 0 0)).take
                (read_line_btr b_px32 1)).length →
          out = (file_px32.drop (read_line_pos b_px32 0 0)).take (read_line_btr b_px32 1)))
    ∧ (file_px32.drop (read_line_pos b_px32 0 0)).take (read_line_btr b_px32 1)
        = [16, 32, 48, 64] :=
  ⟨⟨rfl, rfl, Or.inr (by decide)⟩,
   C14_pass_through 16 (fs_opened file_px32) (dsc_with b_px32) b_px32
     { id := 0, data := file_px32, pos := 54 } 0 0 1 (zeros 4) rfl rfl (Or.inr (by decide)),
   by decide⟩

/-! ## Lemmas on closing streams and on fresh handles -/

theorem filter_ne_of_lt (l : List lv_fs_file_t) (n : Nat) (h : ∀ s ∈ l, s.id < n) :
    l.filter (fun s => s.id != n) = l := by
  rw [List.filter_eq_self]
  intro s hs
  have := h s hs
  simp only [bne_iff_ne, ne_eq]
  omega

theorem find_file_filter_ne (l : List lv_fs_file_t) (f : Nat) :
    find_file (l.filter (fun s => s.id != f)) f = none := by
  induction l with
  | nil => rfl
  | cons a rest ih =>
    by_cases ha : a.id = f
    · rw [List.filter_cons_of_neg (by simp [ha])]
      exact ih
    · rw [List.filter_cons_of_pos (by simp [ha])]
      unfold find_file
      rw [if_neg ha]
      exact ih

theorem find_file_none_of_lt (l : List lv_fs_file_t) (n : Nat) (h : ∀ s ∈ l, s.id < n) :
    find_file l n = none := by
  rw [← filter_ne_of_lt l n h]
  exact find_file_filter_ne l n

theorem close_after_header_read_opened (fs : lv_fs) (path data : List Nat) (hwf : fs_wf fs) :
    (lv_fs_close (fs_after_header_read fs path data) fs.next_id).opened = fs.opened := by
  simp only [lv_fs_close, fs_after_header_read]
  rw [List.filter_cons_of_neg (by simp)]
  exact filter_ne_of_lt fs.opened fs.next_id hwf

theorem set_pos_ids (l : List lv_fs_file_t) (f p n : Nat) (h : ∀ s ∈ l, s.id < n) :
    ∀ s ∈ set_pos l f p, s.id < n := by
  induction l with
  | nil => intro s hs; simp [set_pos] at hs
  | cons a rest ih =>
    intro s hs
    unfold set_pos at hs
    split_ifs at hs with ha
    · rcases List.mem_cons.mp hs with h1 | h1
      · rw [h1]; exact h a (List.mem_cons_self _ _)
      · exact h s (List.mem_cons_of_mem _ h1)
    · rcases List.mem_cons.mp hs with h1 | h1
      · rw [h1]; exact h a (List.mem_cons_self _ _)
      · exact ih (fun t ht => h t (List.mem_cons_of_mem _ ht)) s h1

theorem fs_wf_nil (files : List (List Nat × List Nat)) (n : Nat) (log : List fs_call) :
    fs_wf { files := files, opened := [], next_id := n, log := log } := by
  intro s hs
  simp at hs

theorem fs_wf_open (fs : lv_fs) (path : List Nat) (hwf : fs_wf fs) :
    fs_wf (lv_fs_open fs path).1 := by
  unfold lv_fs_open
  cases fs.files.lookup path with
  | none => exact hwf
  | some d =>
    intro s hs
    simp only [] at hs ⊢
    rcases List.mem_cons.mp hs with h1 | h1
    · rw [h1]; simp
    · have := hwf s h1
      omega

theorem fs_wf_seek (fs : lv_fs) (f p : Nat) (hwf : fs_wf fs) : fs_wf (lv_fs_seek fs f p) :=
  set_pos_ids fs.opened f p fs.next_id hwf

theorem fs_wf_read (fs : lv_fs) (f : Nat) (buf : List Nat) (btr : Nat) (hwf : fs_wf fs) :
    fs_wf (lv_fs_read fs f buf btr).1 := by
  unfold lv_fs_read
  cases find_file fs.opened f with
  | none => exact hwf
  | some s => exact set_pos_ids fs.opened f _ fs.next_id hwf

theorem fs_wf_close (fs : lv_fs) (f : Nat) (hwf : fs_wf fs) : fs_wf (lv_fs_close fs f) := by
  intro s hs
  exact hwf s (List.mem_of_mem_filter hs)

theorem decoder_open_res_congr (a : Bool) (h : List Nat) (fsA fsB : lv_fs)
    (dscA dscB : lv_img_decoder_dsc_t) (hfiles : fsA.files = fsB.files)
    (hsrc : dscA.src = dscB.src) :
    (decoder_open a h fsA dscA).1 = (decoder_open a h fsB dscB).1 := by
  by_cases hfile : dscB.src.src_type = LV_IMG_SRC_FILE
  · by_cases hext : strcmp (ext_of dscB.src) bmp_ext = 0
    · cases hlook : fsB.files.lookup (c_str dscB.src.fn) with
      | none =>
        rw [decoder_open_no_file a h fsB dscB hfile hext hlook,
          decoder_open_no_file a h fsA dscA (by rw [hsrc]; exact hfile)
            (by rw [hsrc]; exact hext) (by rw [hsrc, hfiles]; exact hlook)]
      | some data =>
        rw [decoder_open_file a h fsB dscB data hfile hext hlook,
          decoder_open_file a h fsA dscA data (by rw [hsrc]; exact hfile)
            (by rw [hsrc]; exact hext) (by rw [hsrc, hfiles]; exact hlook)]
        split_ifs <;> rfl
    · rw [decoder_open_bad_ext a h fsB dscB hfile hext,
        decoder_open_bad_ext a h fsA dscA (by rw [hsrc]; exact hfile) (by rw [hsrc]; exact hext)]
  · rw [decoder_open_not_file a h fsB dscB hfile,
      decoder_open_not_file a h fsA dscA (by rw [hsrc]; exact hfile)]

/-! ## C15: closing a session -/

/-- C15: for every session a successful `decoder_open` produced from a state with fresh
handles, `decoder_close` closes the session's stream (it is open before the call and not open
after it, in whatever later state the call is made) and hands the session descriptor to
`lv_mem_free`; after open-then-close the open streams are those from before the open, and a
subsequent `decoder_open` of the same path returns what it would have returned before, so with
the same allocation and array contents it succeeds again. -/
theorem C15_close_releases_session (alloc_ok : Bool) (header0 : List Nat) (fs : lv_fs)
    (dsc dsc1 : lv_img_decoder_dsc_t) (fs1 : lv_fs)
    (hopen : decoder_open alloc_ok header0 fs dsc = (LV_RES_OK, dsc1, fs1))
    (hwf : fs_wf fs) :
    ∃ b,
      dsc1.user_data = some b
      ∧ find_file fs1.opened b.f ≠ none
      ∧ (∀ fsx, decoder_close fsx dsc1 = some (lv_fs_close fsx b.f, b)
          ∧ find_file (lv_fs_close fsx b.f).opened b.f = none
          ∧ (lv_fs_close fsx b.f).log = fsx.log ++ [fs_call.close b.f])
      ∧ (lv_fs_close fs1 b.f).opened = fs.opened
      ∧ (∀ a h, (decoder_open a h (lv_fs_close fs1 b.f) dsc1).1 = (decoder_open a h fs dsc).1)
      ∧ (decoder_open alloc_ok header0 (lv_fs_close fs1 b.f) dsc1).1 = LV_RES_OK := by
  obtain ⟨data, -, -, -, -, -, -, heq⟩ :=
    decoder_open_ok_inv alloc_ok header0 fs dsc (by rw [hopen])
  rw [hopen] at heq
  have hd : dsc1 = { dsc with
      user_data := some (dsc_of_header fs.next_id (header_after_read data header0)),
      img_data := none } := congrArg (fun r => r.2.1) heq
  have hf : fs1 = fs_after_header_read fs (c_str dsc.src.fn) data :=
    congrArg (fun r => r.2.2) heq
  have hcongr : ∀ a h, (decoder_open a h
      (lv_fs_close fs1 (dsc_of_header fs.next_id (header_after_read data header0)).f) dsc1).1
      = (decoder_open a h fs dsc).1 := by
    intro a h
    apply decoder_open_res_congr
    · rw [hf]; rfl
    · rw [hd]
  refine ⟨dsc_of_header fs.next_id (header_after_read data header0), by rw [hd], ?_, ?_, ?_,
    hcongr, ?_⟩
  · rw [hf]
    simp [fs_after_header_read, find_file, dsc_of_header]
  · intro fsx
    refine ⟨?_, find_file_filter_ne _ _, rfl⟩
    unfold decoder_close
    rw [hd]
  · rw [hf]
    exact close_after_header_read_opened fs (c_str dsc.src.fn) data hwf
  · rw [hcongr, hopen]

/-- C15 at the 2x2 file `a.bmp`, opened from a state without open streams. -/
theorem C15_close_releases_session_witness :
    (decoder_open true (zeros 54) (fs_with file_2x2) dsc_a
        = (LV_RES_OK, dsc_with b_2x2, fs_opened file_2x2)
      ∧ fs_wf (fs_with file_2x2))
    ∧ ∃ b,
      (dsc_with b_2x2).user_data = some b
      ∧ find_file (fs_opened file_2x2).opened b.f ≠ none
      ∧ (∀ fsx, decoder_close fsx (dsc_with b_2x2) = some (lv_fs_close fsx b.f, b)
          ∧ find_file (lv_fs_close fsx b.f).opened b.f = none
          ∧ (lv_fs_close fsx b.f).log = fsx.log ++ [fs_call.close b.f])
      ∧ (lv_fs_close (fs_opened file_2x2) b.f).opened = (fs_with file_2x2).opened
      ∧ (∀ a h, (decoder_open a h (lv_fs_close (fs_opened file_2x2) b.f) (dsc_with b_2x2)).1
            = (decoder_open a h (fs_with file_2x2) dsc_a).1)
      ∧ (decoder_open true (zeros 54) (lv_fs_close (fs_opened file_2x2) b.f)
            (dsc_with b_2x2)).1 = LV_RES_OK :=
  ⟨⟨rfl, fs_wf_nil _ _ _⟩,
   C15_close_releases_session true (zeros 54) (fs_with file_2x2) dsc_a (dsc_with b_2x2)
     (fs_opened file_2x2) rfl (fs_wf_nil _ _ _)⟩

/-! ## C16: the probe leaves no stream open -/

/-- C16: for every source and every state with fresh handles, `decoder_info` leaves the open
streams and the files as they were: it either makes no call to the file system, or a failed
`lv_fs_open`, or `lv_fs_open`, one 54-byte `lv_fs_read` and `lv_fs_close` on the stream it
opened, which is not open when it returns. The probe has no access to a decoder descriptor, so
it attaches no session. -/
theorem C16_info_leaves_no_stream (cd hsize : Nat) (hmem : Nat → Nat) (headers0 : List Nat)
    (fs : lv_fs) (src : img_src) (header : lv_img_header_t) (hwf : fs_wf fs) :
    (decoder_info cd hsize hmem headers0 fs src header).2.2.opened = fs.opened
    ∧ (decoder_info cd hsize hmem headers0 fs src header).2.2.files = fs.files
    ∧ find_file (decoder_info cd hsize hmem headers0 fs src header).2.2.opened fs.next_id
        = none
    ∧ ((decoder_info cd hsize hmem headers0 fs src header).2.2.log = fs.log
        ∨ (decoder_info cd hsize hmem headers0 fs src header).2.2.log
            = fs.log ++ [fs_call.open_ (c_str src.fn) false]
        ∨ (decoder_info cd hsize hmem headers0 fs src header).2.2.log
            = fs.log ++ [fs_call.open_ (c_str src.fn) true, fs_call.read fs.next_id 54,
                         fs_call.close fs.next_id]) := by
  have hnone : find_file fs.opened fs.next_id = none :=
    find_file_none_of_lt fs.opened fs.next_id hwf
  by_cases hfile : src.src_type = LV_IMG_SRC_FILE
  · by_cases hext : strcmp (ext_of src) bmp_ext = 0
    · cases hlook : fs.files.lookup (c_str src.fn) with
      | none =>
        rw [decoder_info_no_file cd hsize hmem headers0 fs src header hfile hext hlook]
        exact ⟨rfl, rfl, hnone, Or.inr (Or.inl rfl)⟩
      | some data =>
        rw [decoder_info_file cd hsize hmem headers0 fs src header data hfile hext hlook]
        have ho := close_after_header_read_opened fs (c_str src.fn) data hwf
        refine ⟨ho, rfl, ?_, Or.inr (Or.inr ?_)⟩
        · simp only []
          rw [ho]; exact hnone
        · simp [lv_fs_close, fs_after_header_read]
    · rw [decoder_info_bad_ext cd hsize hmem headers0 fs src header hfile hext]
      exact ⟨rfl, rfl, hnone, Or.inl rfl⟩
  · rw [decoder_info_not_file cd hsize hmem headers0 fs src header hfile]
    exact ⟨rfl, rfl, hnone, Or.inl rfl⟩

/-- C16 at the 2x2 file `a.bmp`, probed while another stream (handle 0) is open. -/
theorem C16_info_leaves_no_stream_witness :
    fs_wf (fs_opened file_2x2)
    ∧ ((decoder_info 16 4 (fun _ => 0) (zeros 54) (fs_opened file_2x2) src_a
          header_init).2.2.opened = (fs_opened file_2x2).opened
      ∧ (decoder_info 16 4 (fun _ => 0) (zeros 54) (fs_opened file_2x2) src_a
          header_init).2.2.files = (fs_opened file_2x2).files
      ∧ find_file (decoder_info 16 4 (fun _ => 0) (zeros 54) (fs_opened file_2x2) src_a
          header_init).2.2.opened (fs_opened file_2x2).next_id = none
      ∧ ((decoder_info 16 4 (fun _ => 0) (zeros 54) (fs_opened file_2x2) src_a
            header_init).2.2.log = (fs_opened file_2x2).log
          ∨ (decoder_info 16 4 (fun _ => 0) (zeros 54) (fs_opened file_2x2) src_a
              header_init).2.2.log
              = (fs_opened file_2x2).log ++ [fs_call.open_ (c_str src_a.fn) false]
          ∨ (decoder_info 16 4 (fun _ => 0) (zeros 54) (fs_opened file_2x2) src_a
              header_init).2.2.log
              = (fs_opened file_2x2).log
                ++ [fs_call.open_ (c_str src_a.fn) true,
                    fs_call.read (fs_opened file_2x2).next_id 54,
                    fs_call.close (fs_opened file_2x2).next_id]))
    ∧ (decoder_info 16 4 (fun _ => 0) (zeros 54) (fs_opened file_2x2) src_a header_init).1
        = LV_RES_OK :=
  have hwf : fs_wf (fs_opened file_2x2) := by
    intro s hs
    simp only [fs_opened, List.mem_singleton] at hs
    rw [hs]
    decide
  ⟨hwf,
   C16_info_leaves_no_stream 16 4 (fun _ => 0) (zeros 54) (fs_opened file_2x2) src_a header_init
     hwf,
   by decide⟩

/-! ## C17: the stride stored in the descriptor -/

/-- C17, as stated, fails: for the header with width `-1` and 24 bpp `decoder_open` stores
`row_size_bytes = 536870909` while `(bpp * px_width) / 8` is `-3`; for the header with width
`2 ^ 27` and 32 bpp it stores `0` while `(bpp * px_width) / 8` is `2 ^ 29`. -/
theorem C17_counterexample :
    (decoder_open true (zeros 54) (fs_with file_neg_width) dsc_a).1 = LV_RES_OK
    ∧ (decoder_open true (zeros 54) (fs_with file_neg_width) dsc_a).2.1.user_data
        = some { f := 0, px_offset := 54, px_width := -1, px_height := 2, bpp := 24,
                 row_size_bytes := 536870909 }
    ∧ ((24 : Int) * (-1)) / 8 = -3
    ∧ (decoder_open true (zeros 54) (fs_with file_wide_header) dsc_a).1 = LV_RES_OK
    ∧ (decoder_open true (zeros 54) (fs_with file_wide_header) dsc_a).2.1.user_data
        = some b_wide
    ∧ b_wide.row_size_bytes = 0
    ∧ ((b_wide.bpp : Int) * b_wide.px_width) / 8 = 536870912 := by
  decide

/-- C17, amended: every session descriptor `decoder_open` creates satisfies
`row_size_bytes == ((bpp * (unsigned) px_width) mod 2 ^ 32) / 8`, the product being taken in
unsigned 32-bit arithmetic; the stride lies in `[0, 2 ^ 29)`, and it equals
`(bpp * px_width) / 8` over the integers whenever `px_width ≥ 0` and `bpp * px_width < 2 ^ 32`.
`decoder_read_line` only reads the descriptor: its embedding takes the descriptor as an
argument and returns the code, the buffer and the file system. -/
theorem C17_stride_invariant (alloc_ok : Bool) (header0 : List Nat) (fs : lv_fs)
    (dsc dsc1 : lv_img_decoder_dsc_t) (fs1 : lv_fs)
    (hopen : decoder_open alloc_ok header0 fs dsc = (LV_RES_OK, dsc1, fs1)) :
    ∃ b,
      dsc1.user_data = some b
      ∧ b.row_size_bytes = (((b.bpp * as_uint b.px_width) % 4294967296 / 8 : Nat) : Int)
      ∧ 0 ≤ b.row_size_bytes ∧ b.row_size_bytes < 536870912
      ∧ (0 ≤ b.px_width → (b.bpp : Int) * b.px_width < 4294967296 →
          b.row_size_bytes = (b.bpp : Int) * b.px_width / 8) := by
  obtain ⟨data, -, -, -, -, -, -, heq⟩ :=
    decoder_open_ok_inv alloc_ok header0 fs dsc (by rw [hopen])
  rw [hopen] at heq
  have hd : dsc1.user_data
      = some (dsc_of_header fs.next_id (header_after_read data header0)) := by
    have := congrArg (fun r => r.2.1.user_data) heq
    simpa using this
  have hlt : (le_u16 (header_after_read data header0) 28
      * as_uint (le_i32 (header_after_read data header0) 18)) % 4294967296 / 8
      < 536870912 := by omega
  have hrs : (dsc_of_header fs.next_id (header_after_read data header0)).row_size_bytes
      = (((le_u16 (header_after_read data header0) 28
          * as_uint (le_i32 (header_after_read data header0) 18)) % 4294967296 / 8 : Nat)
          : Int) := by
    simp only [dsc_of_header]
    exact as_int_of_lt _ (by omega)
  refine ⟨dsc_of_header fs.next_id (header_after_read data header0), hd, hrs, ?_, ?_, ?_⟩
  · rw [hrs]; exact Int.natCast_nonneg _
  · rw [hrs]; exact_mod_cast hlt
  · intro hw0 hfit
    rw [hrs]
    have hW : (dsc_of_header fs.next_id (header_after_read data header0)).px_width
        = le_i32 (header_after_read data header0) 18 := rfl
    have hB : (dsc_of_header fs.next_id (header_after_read data header0)).bpp
        = le_u16 (header_after_read data header0) 28 := rfl
    rw [hW, hB] at hfit ⊢
    rw [hW] at hw0
    obtain ⟨w, hw⟩ : ∃ w : Nat, le_i32 (header_after_read data header0) 18 = (w : Int) :=
      ⟨(le_i32 (header_after_read data header0) 18).toNat, by omega⟩
    have hwlt : (w : Int) < 2147483648 := by rw [← hw]; exact as_int_lt _
    rw [hw] at hfit ⊢
    rw [as_uint_of_nonneg _ (by omega) (by omega), Int.toNat_natCast]
    have hprod : le_u16 (header_after_read data header0) 28 * w < 4294967296 := by
      exact_mod_cast hfit
    rw [Nat.mod_eq_of_lt hprod]
    push_cast
    rfl

/-- C17 (amended) at the 2x2, 24-bpp file `a.bmp`: the stride is `24 * 2 / 8 = 6`. -/
theorem C17_stride_invariant_witness :
    decoder_open true (zeros 54) (fs_with file_2x2) dsc_a
      = (LV_RES_OK, dsc_with b_2x2, fs_opened file_2x2)
    ∧ ∃ b,
      (dsc_with b_2x2).user_data = some b
      ∧ b.row_size_bytes = (((b.bpp * as_uint b.px_width) % 4294967296 / 8 : Nat) : Int)
      ∧ 0 ≤ b.row_size_bytes ∧ b.row_size_bytes < 536870912
      ∧ (0 ≤ b.px_width → (b.bpp : Int) * b.px_width < 4294967296 →
          b.row_size_bytes = (b.bpp : Int) * b.px_width / 8) :=
  ⟨rfl, C17_stride_invariant true (zeros 54) (fs_with file_2x2) dsc_a (dsc_with b_2x2)
    (fs_opened file_2x2) rfl⟩

/-! ## C18: the order of the channel rotation -/

theorem list_ext_getD (l1 l2 : List Nat) (hlen : l1.length = l2.length)
    (h : ∀ j, l1.getD j 0 = l2.getD j 0) : l1 = l2 := by
  apply List.ext_getElem hlen
  intro n h1 h2
  have := h n
  rw [List.getD_eq_getElem _ _ h1, List.getD_eq_getElem _ _ h2] at this
  exact this

theorem swap_px_four (buf : List Nat) (i : Nat) (h : 4 * i + 3 < buf.length) :
    swap_px (swap_px (swap_px (swap_px buf i) i) i) i = buf := by
  have l1 : 4 * i + 3 < (swap_px buf i).length := by rw [swap_px_length]; exact h
  have l2 : 4 * i + 3 < (swap_px (swap_px buf i) i).length := by rw [swap_px_length]; exact l1
  have l3 : 4 * i + 3 < (swap_px (swap_px (swap_px buf i) i) i).length := by
    rw [swap_px_length]; exact l2
  apply list_ext_getD
  · simp only [swap_px_length]
  · intro j
    by_cases h0 : j = 4 * i
    · rw [h0, swap_px_getD _ _ _ l3, if_pos rfl, swap_px_getD _ _ _ l2, if_neg (by omega),
        if_pos rfl, swap_px_getD _ _ _ l1, if_neg (by omega), if_neg (by omega), if_pos rfl,
        swap_px_getD _ _ _ h, if_neg (by omega), if_neg (by omega), if_neg (by omega),
        if_pos rfl]
    by_cases h1 : j = 4 * i + 1
    · rw [h1, swap_px_getD _ _ _ l3, if_neg (by omega), if_pos rfl, swap_px_getD _ _ _ l2,
        if_neg (by omega), if_neg (by omega), if_pos rfl, swap_px_getD _ _ _ l1,
        if_neg (by omega), if_neg (by omega), if_neg (by omega), if_pos rfl,
        swap_px_getD _ _ _ h, if_pos rfl]
    by_cases h2 : j = 4 * i + 2
    · rw [h2, swap_px_getD _ _ _ l3, if_neg (by omega), if_neg (by omega), if_pos rfl,
        swap_px_getD _ _ _ l2, if_neg (by omega), if_neg (by omega), if_neg (by omega),
        if_pos rfl, swap_px_getD _ _ _ l1, if_pos rfl, swap_px_getD _ _ _ h,
        if_neg (by omega), if_pos rfl]
    by_cases h3 : j = 4 * i + 3
    · rw [h3, swap_px_getD _ _ _ l3, if_neg (by omega), if_neg (by omega), if_neg (by omega),
        if_pos rfl, swap_px_getD _ _ _ l2, if_pos rfl, swap_px_getD _ _ _ l1,
        if_neg (by omega), if_pos rfl, swap_px_getD _ _ _ h, if_neg (by omega),
        if_neg (by omega), if_pos rfl]
    · rw [swap_px_getD _ _ _ l3, if_neg h0, if_neg h1, if_neg h2, if_neg h3,
        swap_px_getD _ _ _ l2, if_neg h0, if_neg h1, if_neg h2, if_neg h3,
        swap_px_getD _ _ _ l1, if_neg h0, if_neg h1, if_neg h2, if_neg h3,
        swap_px_getD _ _ _ h, if_neg h0, if_neg h1, if_neg h2, if_neg h3]

/-- C18: one turn of the row reader's channel loop maps the pixel `[c0, c1, c2, c3]` to
`[c1, c2, c3, c0]`; four turns applied to any pixel of a buffer return the buffer as it was; and
for a pixel with four distinct channel values one, two or three turns do not restore it. -/
theorem C18_rotation_has_order_four (c0 c1 c2 c3 : Nat) :
    swap_px [c0, c1, c2, c3] 0 = [c1, c2, c3, c0]
    ∧ swap_px (swap_px (swap_px (swap_px [c0, c1, c2, c3] 0) 0) 0) 0 = [c0, c1, c2, c3]
    ∧ (∀ (buf : List Nat) (i : Nat), 4 * i + 3 < buf.length →
        swap_px (swap_px (swap_px (swap_px buf i) i) i) i = buf)
    ∧ (c0 ≠ c1 → c0 ≠ c2 → c0 ≠ c3 →
        swap_px [c0, c1, c2, c3] 0 ≠ [c0, c1, c2, c3]
        ∧ swap_px (swap_px [c0, c1, c2, c3] 0) 0 ≠ [c0, c1, c2, c3]
        ∧ swap_px (swap_px (swap_px [c0, c1, c2, c3] 0) 0) 0 ≠ [c0, c1, c2, c3]) := by
  have e1 : ∀ a b c d : Nat, swap_px [a, b, c, d] 0 = [b, c, d, a] := by
    intro a b c d
    simp [swap_px, bufc_get]
  refine ⟨e1 _ _ _ _, ?_, swap_px_four, ?_⟩
  · rw [e1, e1, e1, e1]
  · intro h01 h02 h03
    refine ⟨?_, ?_, ?_⟩
    · rw [e1]
      intro h
      exact h01 (List.cons.inj h).1.symm
    · rw [e1, e1]
      intro h
      exact h02 (List.cons.inj h).1.symm
    · rw [e1, e1, e1]
      intro h
      exact h03 (List.cons.inj h).1.symm

/-- C18 at the pixel `[0x10, 0x20, 0x30, 0x40]`. -/
theorem C18_rotation_has_order_four_witness :
    ((16 : Nat) ≠ 32 ∧ (16 : Nat) ≠ 48 ∧ (16 : Nat) ≠ 64)
    ∧ (swap_px [16, 32, 48, 64] 0 = [32, 48, 64, 16]
      ∧ swap_px (swap_px (swap_px (swap_px [16, 32, 48, 64] 0) 0) 0) 0 = [16, 32, 48, 64]
      ∧ (∀ (buf : List Nat) (i : Nat), 4 * i + 3 < buf.length →
          swap_px (swap_px (swap_px (swap_px buf i) i) i) i = buf)
      ∧ ((16 : Nat) ≠ 32 → (16 : Nat) ≠ 48 → (16 : Nat) ≠ 64 →
          swap_px [16, 32, 48, 64] 0 ≠ [16, 32, 48, 64]
          ∧ swap_px (swap_px [16, 32, 48, 64] 0) 0 ≠ [16, 32, 48, 64]
          ∧ swap_px (swap_px (swap_px [16, 32, 48, 64] 0) 0) 0 ≠ [16, 32, 48, 64])) :=
  ⟨⟨by decide, by decide, by decide⟩, C18_rotation_has_order_four 16 32 48 64⟩

/-! ## C19: reads stay inside the pixel data -/

/-- C19, as stated, fails: the header with width `2 ^ 27`, height 1 and 32 bpp opens with
`row_size_bytes = 0`, so the pixel data the claim delimits is the empty range `[54, 54)`; every
hypothesis of the claim holds for the request `x = 0, y = 0, len = 1`, whose read covers
`[54, 58)`. -/
theorem C19_counterexample :
    (decoder_open true (zeros 54) (fs_with file_wide_header) dsc_a).2.1.user_data = some b_wide
    ∧ (0 < b_wide.px_width ∧ 0 < b_wide.px_height ∧ 0 < b_wide.bpp ∧ b_wide.bpp % 8 = 0
        ∧ (b_wide.px_offset : Int) + b_wide.px_height * b_wide.row_size_bytes < 4294967296)
    ∧ ((0 : Int) ≤ 0 ∧ (0 : Int) < b_wide.px_height ∧ (0 : Int) ≤ 0 ∧ (0 : Int) ≤ 1
        ∧ (0 : Int) + 1 ≤ b_wide.px_width)
    ∧ read_line_pos b_wide 0 0 = 54
    ∧ read_line_btr b_wide 1 = 4
    ∧ (b_wide.px_offset : Int) + b_wide.px_height * b_wide.row_size_bytes = 54
    ∧ ¬ ((read_line_pos b_wide 0 0 : Int) + read_line_btr b_wide 1
          ≤ (b_wide.px_offset : Int) + b_wide.px_height * b_wide.row_size_bytes) := by
  decide

/-- C19, amended: for every descriptor `decoder_open` produces with `px_width > 0`,
`px_height > 0`, `bpp` a positive multiple of 8, `bpp * px_width < 2 ^ 32` and
`px_offset + px_height * row_size_bytes < 2 ^ 32`, and every request with `0 ≤ y < px_height`,
`0 ≤ x`, `0 ≤ len` and `x + len ≤ px_width`, the 32-bit offset `decoder_read_line` computes is
the specification's offset without wrap-around, the count is `len * (bpp / 8)`, and the byte
range `[p, p + len * (bpp / 8))` lies within
`[px_offset, px_offset + px_height * row_size_bytes)`. -/
theorem C19_reads_inside_pixel_data (alloc_ok : Bool) (header0 : List Nat) (fs : lv_fs)
    (dsc dsc1 : lv_img_decoder_dsc_t) (fs1 : lv_fs) (b : bmp_dsc_t) (x y len : Int)
    (hopen : decoder_open alloc_ok header0 fs dsc = (LV_RES_OK, dsc1, fs1))
    (hb : dsc1.user_data = some b)
    (hW : 0 < b.px_width) (hH : 0 < b.px_height) (hbpp0 : 0 < b.bpp) (hbpp8 : b.bpp % 8 = 0)
    (hfit : (b.bpp : Int) * b.px_width < 4294967296)
    (harea : (b.px_offset : Int) + b.px_height * b.row_size_bytes < 4294967296)
    (hy0 : 0 ≤ y) (hy : y < b.px_height) (hx : 0 ≤ x) (hlen : 0 ≤ len)
    (hxl : x + len ≤ b.px_width) :
    (read_line_pos b x y : Int) = spec_offset b x y
    ∧ (read_line_btr b len : Int) = spec_count b len
    ∧ (b.px_offset : Int) ≤ read_line_pos b x y
    ∧ (read_line_pos b x y : Int) + read_line_btr b len
        ≤ (b.px_offset : Int) + b.px_height * b.row_size_bytes := by
  obtain ⟨data, -, -, -, -, -, -, heq⟩ :=
    decoder_open_ok_inv alloc_ok header0 fs dsc (by rw [hopen])
  rw [hopen] at heq
  have hd1 : dsc1.user_data
      = some (dsc_of_header fs.next_id (header_after_read data header0)) := by
    have := congrArg (fun r => r.2.1.user_data) heq
    simpa using this
  have hbeq : b = dsc_of_header fs.next_id (header_after_read data header0) := by
    rw [hb] at hd1; exact Option.some.inj hd1
  -- naturals for the quantities involved
  obtain ⟨w, hw⟩ : ∃ w : Nat, b.px_width = (w : Int) := ⟨b.px_width.toNat, by omega⟩
  obtain ⟨h, hh⟩ : ∃ h : Nat, b.px_height = (h : Int) := ⟨b.px_height.toNat, by omega⟩
  obtain ⟨q, hq⟩ : ∃ q : Nat, b.bpp = 8 * q := ⟨b.bpp / 8, by omega⟩
  obtain ⟨j, hj⟩ : ∃ j : Nat, y = (j : Int) := ⟨y.toNat, by omega⟩
  obtain ⟨a, ha⟩ : ∃ a : Nat, x = (a : Int) := ⟨x.toNat, by omega⟩
  obtain ⟨n, hn⟩ : ∃ n : Nat, len = (n : Int) := ⟨len.toNat, by omega⟩
  have hjh : j < h := by rw [hj, hh] at hy; exact_mod_cast hy
  have han : a + n ≤ w := by rw [ha, hn, hw] at hxl; exact_mod_cast hxl
  have hqw : 8 * (q * w) < 4294967296 := by
    have : ((8 * q * w : Nat) : Int) < 4294967296 := by
      push_cast; rw [hq, hw] at hfit; push_cast at hfit; linarith
    have h2 : 8 * q * w < 4294967296 := by exact_mod_cast this
    rw [Nat.mul_assoc] at h2; exact h2
  have hstride : b.row_size_bytes = ((q * w : Nat) : Int) ∧ b.bpp / 8 = q := by
    rw [hbeq]
    apply dsc_of_header_stride
    · have : (dsc_of_header fs.next_id (header_after_read data header0)).px_width
          = le_i32 (header_after_read data header0) 18 := rfl
      rw [← this, ← hbeq, hw]
    · have : (dsc_of_header fs.next_id (header_after_read data header0)).bpp
          = le_u16 (header_after_read data header0) 28 := rfl
      rw [← this, ← hbeq, hq]
    · exact hqw
  have hk : b.px_height - 1 - y = ((h - 1 - j : Nat) : Int) := by rw [hh, hj]; omega
  have harea2 : b.px_offset + (q * w) * h < 4294967296 := by
    rw [hh, hstride.1] at harea
    have : ((b.px_offset + (q * w) * h : Nat) : Int) < 4294967296 := by
      push_cast; push_cast at harea; linarith
    exact_mod_cast this
  -- the request lies inside its row and the row inside the pixel data
  have hreq : a * q + n * q ≤ q * w := by
    have : a * q + n * q = q * (a + n) := by ring
    rw [this]
    exact Nat.mul_le_mul_left _ han
  have hrow : (q * w) * (h - 1 - j) + q * w ≤ (q * w) * h := by
    have : (q * w) * (h - 1 - j) + q * w = (q * w) * (h - 1 - j + 1) := by ring
    rw [this]
    exact Nat.mul_le_mul_left _ (by omega)
  have hpos : read_line_pos b x y = b.px_offset + (q * w) * (h - 1 - j) + a * q := by
    rw [read_line_pos_nat b x y (q * w) (h - 1 - j) a q hstride.1 hk ha hstride.2]
    exact Nat.mod_eq_of_lt (by omega)
  have hbtr : read_line_btr b len = n * q :=
    read_line_btr_of_nonneg b len n q hn hstride.2 (by omega)
  refine ⟨?_, ?_, ?_, ?_⟩
  · rw [hpos]
    unfold spec_offset
    rw [hstride.1, hk, ha, hstride.2]
    push_cast; ring
  · rw [hbtr]
    unfold spec_count
    rw [hn, hstride.2]
    push_cast; ring
  · rw [hpos]
    have : b.px_offset ≤ b.px_offset + (q * w) * (h - 1 - j) + a * q := by omega
    exact_mod_cast this
  · rw [hpos, hbtr, hh, hstride.1]
    have : b.px_offset + (q * w) * (h - 1 - j) + a * q + n * q
        ≤ b.px_offset + h * (q * w) := by
      rw [Nat.mul_comm h (q * w)]; omega
    exact_mod_cast this

/-- C19 (amended) at the 2x2, 24-bpp file `a.bmp`: the request `x = 1, y = 0, len = 1` reads
`[63, 66)` inside the pixel data `[54, 66)`. -/
theorem C19_reads_inside_pixel_data_witness :
    (decoder_open true (zeros 54) (fs_with file_2x2) dsc_a
        = (LV_RES_OK, dsc_with b_2x2, fs_opened file_2x2)
      ∧ (dsc_with b_2x2).user_data = some b_2x2
      ∧ 0 < b_2x2.px_width ∧ 0 < b_2x2.px_height ∧ 0 < b_2x2.bpp ∧ b_2x2.bpp % 8 = 0
      ∧ (b_2x2.bpp : Int) * b_2x2.px_width < 4294967296
      ∧ (b_2x2.px_offset : Int) + b_2x2.px_height * b_2x2.row_size_bytes < 4294967296
      ∧ (0 : Int) ≤ 0 ∧ (0 : Int) < b_2x2.px_height ∧ (0 : Int) ≤ 1 ∧ (0 : Int) ≤ 1
      ∧ (1 : Int) + 1 ≤ b_2x2.px_width)
    ∧ ((read_line_pos b_2x2 1 0 : Int) = spec_offset b_2x2 1 0
      ∧ (read_line_btr b_2x2 1 : Int) = spec_count b_2x2 1
      ∧ (b_2x2.px_offset : Int) ≤ read_line_pos b_2x2 1 0
      ∧ (read_line_pos b_2x2 1 0 : Int) + read_line_btr b_2x2 1
          ≤ (b_2x2.px_offset : Int) + b_2x2.px_height * b_2x2.row_size_bytes)
    ∧ read_line_pos b_2x2 1 0 = 63 ∧ read_line_btr b_2x2 1 = 3 :=
  ⟨⟨rfl, rfl, by decide, by decide, by decide, by decide, by decide, by decide, by decide,
    by decide, by decide, by decide, by decide⟩,
   C19_reads_inside_pixel_data true (zeros 54) (fs_with file_2x2) dsc_a (dsc_with b_2x2)
     (fs_opened file_2x2) b_2x2 1 0 1 rfl rfl (by decide) (by decide) (by decide) (by decide)
     (by decide) (by decide) (by decide) (by decide) (by decide) (by decide) (by decide),
   by decide, by decide⟩

/-! ## C20: the probe and open agree -/

/-- C20: for every source and every file of at least 54 bytes behind it, if `decoder_open`
returns `LV_RES_OK` then `decoder_info` on the same source, in any state that holds the same
files and for every colour depth and previous content of its local array, also returns
`LV_RES_OK`, and the width and height it reports are the `px_width` and `px_height` of the
session descriptor. -/
theorem C20_probe_open_agree (alloc_ok : Bool) (header0 : List Nat) (fs : lv_fs)
    (dsc dsc1 : lv_img_decoder_dsc_t) (fs1 : lv_fs) (data : List Nat)
    (cd hsize : Nat) (hmem : Nat → Nat) (headers0 : List Nat) (fsi : lv_fs)
    (header : lv_img_header_t)
    (hopen : decoder_open alloc_ok header0 fs dsc = (LV_RES_OK, dsc1, fs1))
    (hlook : fs.files.lookup (c_str dsc.src.fn) = some data) (hlen : 54 ≤ data.length)
    (hfiles : fsi.files = fs.files) :
    (decoder_info cd hsize hmem headers0 fsi dsc.src header).1 = LV_RES_OK
    ∧ ∃ b, dsc1.user_data = some b
      ∧ (decoder_info cd hsize hmem headers0 fsi dsc.src header).2.1.w = b.px_width
      ∧ (decoder_info cd hsize hmem headers0 fsi dsc.src header).2.1.h = b.px_height := by
  obtain ⟨data1, hfile, hext, hlook1, -, -, -, heq⟩ :=
    decoder_open_ok_inv alloc_ok header0 fs dsc (by rw [hopen])
  have hdd : data1 = data := by
    rw [hlook] at hlook1; exact (Option.some.inj hlook1).symm
  rw [hdd] at heq
  rw [hopen] at heq
  have hd1 : dsc1.user_data
      = some (dsc_of_header fs.next_id (header_after_read data header0)) := by
    have := congrArg (fun r => r.2.1.user_data) heq
    simpa using this
  rw [decoder_info_file cd hsize hmem headers0 fsi dsc.src header data hfile hext
    (by rw [hfiles]; exact hlook)]
  refine ⟨rfl, dsc_of_header fs.next_id (header_after_read data header0), hd1, ?_, ?_⟩
  · simp only [dsc_of_header, le_i32]
    rw [le_u32_header_after_read data headers0 18 (by norm_num) (by omega),
      le_u32_header_after_read data header0 18 (by norm_num) (by omega)]
  · simp only [dsc_of_header, le_i32]
    rw [le_u32_header_after_read data headers0 22 (by norm_num) (by omega),
      le_u32_header_after_read data header0 22 (by norm_num) (by omega)]

/-- C20 at the 2x2 file `a.bmp`: the probe, run after the open with other stale array contents,
reports the width 2 and height 2 of the session. -/
theorem C20_probe_open_agree_witness :
    (decoder_open true (zeros 54) (fs_with file_2x2) dsc_a
        = (LV_RES_OK, dsc_with b_2x2, fs_opened file_2x2)
      ∧ (fs_with file_2x2).files.lookup (c_str dsc_a.src.fn) = some file_2x2
      ∧ 54 ≤ file_2x2.length
      ∧ (fs_opened file_2x2).files = (fs_with file_2x2).files)
    ∧ ((decoder_info 32 4 (fun _ => 0) stale54 (fs_opened file_2x2) dsc_a.src header_init).1
        = LV_RES_OK
      ∧ ∃ b, (dsc_with b_2x2).user_data = some b
        ∧ (decoder_info 32 4 (fun _ => 0) stale54 (fs_opened file_2x2) dsc_a.src
            header_init).2.1.w = b.px_width
        ∧ (decoder_info 32 4 (fun _ => 0) stale54 (fs_opened file_2x2) dsc_a.src
            header_init).2.1.h = b.px_height) :=
  ⟨⟨rfl, rfl, by decide, rfl⟩,
   C20_probe_open_agree true (zeros 54) (fs_with file_2x2) dsc_a (dsc_with b_2x2)
     (fs_opened file_2x2) file_2x2 32 4 (fun _ => 0) stale54 (fs_opened file_2x2) header_init
     rfl rfl (by decide) rfl⟩

end LvBmp
